import Mathlib

/-!
# A verification development for the benchmark.ts measurement core

This file gives a shallow embedding, in Lean 4, of the measurement and
statistics core of the `benchmark.ts` library: the per-cycle statistics
evaluation of the sampling controller (`lifecycle.ts` / `compute`), the
cycle controller (`lifecycle.ts` / `cycle`), the Mann-Whitney comparison
(`benchmark.ts` / `Benchmark.compare`), the timer-resolution probe
(`timers/utils.ts` and `timers/timers.ts`), the reset/abort/run flag
machinery of `Benchmark`, and the deferred clock template of `clock.ts`.

JavaScript numbers are modelled by `JsNum α`: an exact linearly ordered
field carrier `α` (`ℚ` or `ℝ`) for the finite values, together with the
special values `NaN`, `Infinity` and `-Infinity`.  IEEE rounding is not
modelled (values are exact); the propagation rules for the special values
follow ECMAScript.  The negative zero is identified with zero.
-/

set_option maxHeartbeats 1000000
set_option maxRecDepth 20000
set_option linter.unusedSectionVars false

/-- A JavaScript number: a finite value from an exact ordered field, or one
of the IEEE special values `NaN`, `Infinity`, `-Infinity`. -/
inductive JsNum (α : Type) where
  | nan : JsNum α
  | inf : JsNum α
  | ninf : JsNum α
  | fin : α → JsNum α
deriving DecidableEq

namespace JsNum

variable {α : Type} [LinearOrderedField α]

/-- JavaScript addition `x + y` on `JsNum`. -/
def add : JsNum α → JsNum α → JsNum α
  | nan, _ => nan
  | _, nan => nan
  | inf, ninf => nan
  | ninf, inf => nan
  | inf, _ => inf
  | _, inf => inf
  | ninf, _ => ninf
  | _, ninf => ninf
  | fin a, fin b => fin (a + b)

/-- JavaScript negation `-x`. -/
def neg : JsNum α → JsNum α
  | nan => nan
  | inf => ninf
  | ninf => inf
  | fin a => fin (-a)

/-- JavaScript subtraction `x - y`. -/
def sub (x y : JsNum α) : JsNum α := add x (neg y)

/-- JavaScript multiplication `x * y`. -/
def mul : JsNum α → JsNum α → JsNum α
  | nan, _ => nan
  | _, nan => nan
  | inf, inf => inf
  | inf, ninf => ninf
  | ninf, inf => ninf
  | ninf, ninf => inf
  | inf, fin b => if b = 0 then nan else if 0 < b then inf else ninf
  | fin a, inf => if a = 0 then nan else if 0 < a then inf else ninf
  | ninf, fin b => if b = 0 then nan else if 0 < b then ninf else inf
  | fin a, ninf => if a = 0 then nan else if 0 < a then ninf else inf
  | fin a, fin b => fin (a * b)

/-- JavaScript division `x / y` (with `0/0 = NaN`, `x/0 = ±Infinity` for
nonzero finite `x`; the sign of zero is not modelled, so `x / 0` uses the
sign of `x` and `Infinity / 0 = Infinity`). -/
def div : JsNum α → JsNum α → JsNum α
  | nan, _ => nan
  | _, nan => nan
  | inf, inf => nan
  | inf, ninf => nan
  | ninf, inf => nan
  | ninf, ninf => nan
  | fin _, inf => fin 0
  | fin _, ninf => fin 0
  | inf, fin b => if 0 ≤ b then inf else ninf
  | ninf, fin b => if 0 ≤ b then ninf else inf
  | fin a, fin b =>
      if b = 0 then (if a = 0 then nan else if 0 < a then inf else ninf)
      else fin (a / b)

/-- The JavaScript idiom `x || 0`: `NaN` and `0` (the falsy numbers) are
replaced by `0`, every other value is kept. -/
def or0 : JsNum α → JsNum α
  | nan => fin 0
  | inf => inf
  | ninf => ninf
  | fin a => if a = 0 then fin 0 else fin a

/-- The JavaScript test `x == Infinity` (false for `NaN`). -/
def isInf : JsNum α → Bool
  | inf => true
  | _ => false

/-- JavaScript comparison `x <= y` (false whenever an operand is `NaN`). -/
def le : JsNum α → JsNum α → Bool
  | nan, _ => false
  | _, nan => false
  | ninf, _ => true
  | _, inf => true
  | inf, _ => false
  | fin _, ninf => false
  | fin a, fin b => decide (a ≤ b)

/-- JavaScript comparison `x < y` (false whenever an operand is `NaN`). -/
def lt : JsNum α → JsNum α → Bool
  | nan, _ => false
  | _, nan => false
  | _, ninf => false
  | ninf, _ => true
  | inf, _ => false
  | _, inf => true
  | fin a, fin b => decide (a < b)

/-- JavaScript `Math.abs`. -/
def abs : JsNum α → JsNum α
  | nan => nan
  | inf => inf
  | ninf => inf
  | fin a => fin |a|

/-- JavaScript `Math.floor` (`Infinity`, `-Infinity` and `NaN` map to
themselves). -/
def floor [FloorRing α] : JsNum α → JsNum α
  | nan => nan
  | inf => inf
  | ninf => ninf
  | fin a => fin (⌊a⌋ : α)

/-- JavaScript `Math.ceil` (`Infinity`, `-Infinity` and `NaN` map to
themselves). -/
def ceil [FloorRing α] : JsNum α → JsNum α
  | nan => nan
  | inf => inf
  | ninf => ninf
  | fin a => fin (⌈a⌉ : α)

/-- JavaScript `Math.sqrt` over the real carrier. -/
noncomputable def sqrt : JsNum ℝ → JsNum ℝ
  | nan => nan
  | inf => inf
  | ninf => nan
  | fin a => if a < 0 then nan else fin (Real.sqrt a)

@[simp] theorem add_fin_fin (a b : α) : add (fin a) (fin b) = fin (a + b) := rfl

@[simp] theorem add_fin_inf (a : α) : add (fin a) inf = inf := rfl

@[simp] theorem add_nan_any (x : JsNum α) : add nan x = nan := by cases x <;> rfl

@[simp] theorem mul_fin_fin (a b : α) : mul (fin a) (fin b) = fin (a * b) := rfl

@[simp] theorem mul_nan_any (x : JsNum α) : mul nan x = nan := by cases x <;> rfl

@[simp] theorem sub_fin_fin (a b : α) : sub (fin a) (fin b) = fin (a - b) := by
  simp [sub, neg, sub_eq_add_neg]

@[simp] theorem div_nan_any (x : JsNum α) : div nan x = nan := by cases x <;> rfl

@[simp] theorem div_fin_fin (a b : α) (hb : b ≠ 0) :
    div (fin a) (fin b) = fin (a / b) := by
  simp [div, hb]

@[simp] theorem div_zero_zero : div (fin (0 : α)) (fin 0) = nan := by
  simp [div]

theorem div_fin_zero_pos (a : α) (ha : 0 < a) : div (fin a) (fin 0) = inf := by
  simp [div, ha, ne_of_gt ha]

@[simp] theorem div_inf_fin (b : α) (hb : 0 ≤ b) : div inf (fin b) = inf := by
  simp [div, hb]

@[simp] theorem or0_nan : or0 (nan : JsNum α) = fin 0 := rfl

@[simp] theorem or0_inf : or0 (inf : JsNum α) = inf := rfl

@[simp] theorem or0_fin (a : α) : or0 (fin a) = fin a := by
  by_cases h : a = 0 <;> simp [or0, h]

@[simp] theorem isInf_fin (a : α) : isInf (fin a) = false := rfl

@[simp] theorem isInf_inf : isInf (inf : JsNum α) = true := rfl

@[simp] theorem isInf_nan : isInf (nan : JsNum α) = false := rfl

@[simp] theorem le_fin_fin (a b : α) : le (fin a) (fin b) = decide (a ≤ b) := rfl

@[simp] theorem le_inf_fin (b : α) : le inf (fin b) = false := rfl

@[simp] theorem lt_fin_fin (a b : α) : lt (fin a) (fin b) = decide (a < b) := rfl

@[simp] theorem lt_fin_inf (a : α) : lt (fin a) inf = true := rfl

@[simp] theorem lt_ninf_inf : lt (ninf : JsNum α) inf = true := rfl

@[simp] theorem lt_inf_any (x : JsNum α) : lt inf x = false := by
  cases x <;> rfl

@[simp] theorem floor_fin [FloorRing α] (a : α) : floor (fin a) = fin (⌊a⌋ : α) := rfl

@[simp] theorem floor_inf [FloorRing α] : floor (inf : JsNum α) = inf := rfl

@[simp] theorem ceil_fin [FloorRing α] (a : α) : ceil (fin a) = fin (⌈a⌉ : α) := rfl

@[simp] theorem ceil_inf [FloorRing α] : ceil (inf : JsNum α) = inf := rfl

@[simp] theorem sqrt_fin_nonneg (a : ℝ) (ha : 0 ≤ a) :
    sqrt (fin a) = fin (Real.sqrt a) := by
  simp [sqrt, not_lt.mpr ha]

@[simp] theorem sqrt_nan : sqrt nan = nan := rfl

@[simp] theorem mul_nan_fin (b : ℝ) : mul nan (fin b) = nan := rfl

@[simp] theorem abs_fin (a : α) : abs (fin a) = fin |a| := rfl

/-- Summing a list of finite values with JavaScript addition stays finite
and agrees with the exact sum. -/
theorem foldl_add_fins (l : List α) (c : α) :
    (l.map fin).foldl add (fin c) = fin (c + l.sum) := by
  induction l generalizing c with
  | nil => simp
  | cons x xs ih => simp [ih, add_assoc]

/-- Appending `Infinity` to a list of finite values makes the JavaScript
sum `Infinity`. -/
theorem foldl_add_fins_inf (l : List α) (c : α) :
    ((l.map fin) ++ [inf]).foldl add (fin c) = inf := by
  rw [List.foldl_append, foldl_add_fins]
  rfl

end JsNum

namespace Benchmark

open JsNum

/-- The arithmetic mean `getMean` from `timers/utils.ts`:
`(sample.reduce((a, b) => a + b, 0) / sample.length) || 0`. -/
def getMean {α : Type} [LinearOrderedField α] (sample : List (JsNum α)) : JsNum α :=
  JsNum.or0 (JsNum.div (sample.foldl JsNum.add (.fin 0)) (.fin (sample.length : α)))

/-- The literal two-tailed 95% Student-t critical values of `constants.ts`,
keyed `1`..`30`. -/
def tTableValues : List ℝ :=
  [12.706, 4.303, 3.182, 2.776, 2.571, 2.447, 2.365, 2.306, 2.262, 2.228,
   2.201, 2.179, 2.16, 2.145, 2.131, 2.12, 2.11, 2.101, 2.093, 2.086,
   2.08, 2.074, 2.069, 2.064, 2.06, 2.056, 2.052, 2.048, 2.045, 2.042]

/-- The `tTable` object lookup of `constants.ts`: defined on keys 1..30,
`undefined` (here `none`) elsewhere; the `infinity` entry `1.96` is applied
by callers through `|| tTable.infinity`. -/
def tTable (k : ℤ) : Option ℝ :=
  if 1 ≤ k ∧ k ≤ 30 then tTableValues.get? (k - 1).toNat else none

/-- The stats record of `BenchmarkStats` (the sample array is kept
separately in `EvalState`). -/
structure Stats where
  mean : JsNum ℝ
  variance : JsNum ℝ
  deviation : JsNum ℝ
  sem : JsNum ℝ
  moe : JsNum ℝ
  rme : JsNum ℝ

/- The stats block of `evaluate` in `lifecycle.ts` (lines 224-249), as a
function of the sample array it reads (`sample` and `size` after the
discard step), is split below into one definition per source statement. -/

/-- The sample array as JavaScript numbers (all entries finite). -/
def codeSampleJs (sample : List ℚ) : List (JsNum ℝ) :=
  sample.map (fun q => JsNum.fin (Rat.cast q))

/-- `mean = getMean(sample)`. -/
noncomputable def codeMean (sample : List ℚ) : JsNum ℝ :=
  getMean (codeSampleJs sample)

/-- `variance = sample.reduce(varOf, 0) / (size - 1) || 0` with
`varOf = (sum, x) => sum + Math.pow(x - mean, 2)`. -/
noncomputable def codeVariance (sample : List ℚ) : JsNum ℝ :=
  JsNum.or0
    (((codeSampleJs sample).foldl
        (fun (acc x : JsNum ℝ) =>
          acc.add ((x.sub (codeMean sample)).mul (x.sub (codeMean sample))))
        (.fin 0)).div
      (.fin ((sample.length : ℝ) - 1)))

/-- `sd = Math.sqrt(variance)`. -/
noncomputable def codeDeviation (sample : List ℚ) : JsNum ℝ :=
  (codeVariance sample).sqrt

/-- `sem = sd / Math.sqrt(size)`. -/
noncomputable def codeSem (sample : List ℚ) : JsNum ℝ :=
  (codeDeviation sample).div (JsNum.sqrt (.fin (sample.length : ℝ)))

/-- `critical = tTable[Math.round(df) || 1] || tTable.infinity` with
`df = size - 1`.  `df` is an integer so `Math.round(df) = df`; `|| 1`
replaces the falsy `0`; the outer `||` maps an out-of-range (`undefined`)
lookup to `tTable.infinity = 1.96` (all table entries are nonzero). -/
noncomputable def codeCritical (sample : List ℚ) : ℝ :=
  (tTable (if (sample.length : ℤ) - 1 = 0 then 1 else (sample.length : ℤ) - 1)).getD 1.96

/-- `moe = sem * critical`. -/
noncomputable def codeMoe (sample : List ℚ) : JsNum ℝ :=
  (codeSem sample).mul (.fin (codeCritical sample))

/-- `rme = (moe / mean) * 100 || 0`. -/
noncomputable def codeRme (sample : List ℚ) : JsNum ℝ :=
  JsNum.or0 (((codeMoe sample).div (codeMean sample)).mul (.fin 100))

noncomputable def computeStats (sample : List ℚ) : Stats :=
  { mean := codeMean sample, variance := codeVariance sample,
    deviation := codeDeviation sample, sem := codeSem sample,
    moe := codeMoe sample, rme := codeRme sample }

/-- The state read and written by one call of `evaluate` in
`lifecycle.ts`: the source benchmark `bench` of `compute`, its
`times`/`stats` records, and the closure variables `elapsed`, `initCount`
and `queue` of `compute`. -/
structure EvalState where
  benchAborted : Bool
  benchRunning : Bool
  benchHz : JsNum ℝ
  benchCount : ℚ
  benchInitCount : ℚ
  maxTime : ℚ
  minSamples : ℕ
  sample : List ℚ
  stats : Stats
  timesCycle : JsNum ℝ
  timesPeriod : JsNum ℝ
  timesElapsed : ℚ
  timesTimeStamp : ℚ
  elapsedAcc : ℚ
  initCountSaved : ℚ
  queueLen : ℕ

/-- The fields of the finishing clone that `evaluate` reads:
`clone.times.period`, `clone.times.timeStamp` and `clone.hz`. -/
structure CloneObs where
  period : ℚ
  timeStamp : ℚ
  hz : JsNum ℝ

/-- The outcome of one `evaluate` call: the updated state, the local
`maxedOut` flag, whether `enqueue()` was called, and the `event.aborted`
flag returned to `invoke`. -/
structure EvalResult where
  state : EvalState
  maxedOut : Bool
  enqueued : Bool
  eventAborted : Bool

/-- One call of `evaluate(event)` in `lifecycle.ts` (lines 201-275),
translated statement by statement:

* `done = bench.aborted`;
* `size = sample.push(clone.times.period)`;
* `maxedOut = size >= minSamples && (elapsed += now - clone.times.timeStamp) > bench.maxTime`
  — note the `&&` short-circuit: `elapsed` accumulates only once
  `size >= minSamples`;
* if `done || clone.hz == Infinity`:
  `maxedOut = !(size = sample.length = queue.length = 0)` (so `maxedOut`
  becomes `true` and the sample and queue are emptied);
* if `!done`: compute the stats from the (possibly emptied) sample and
  assign them to `bench.stats`; if `maxedOut` then restore
  `bench.initCount`, set `bench.running = false`, `done = true` and
  `times.elapsed = (now - times.timeStamp) / 1e3`; if
  `bench.hz != Infinity` then `bench.hz = 1 / mean`,
  `times.cycle = mean * bench.count`, `times.period = mean`;
* if `queue.length < 2 && !maxedOut` then `enqueue()`;
* `event.aborted = done`. -/
noncomputable def evaluate (s : EvalState) (c : CloneObs) (now : ℚ) : EvalResult :=
  let done0 := s.benchAborted
  let size0 : ℕ := s.sample.length + 1
  let sample0 := s.sample ++ [c.period]
  let elapsed1 : ℚ :=
    if s.minSamples ≤ size0 then s.elapsedAcc + (now - c.timeStamp) else s.elapsedAcc
  let maxedOut0 : Bool := decide (s.minSamples ≤ size0) && decide (s.maxTime < elapsed1)
  let discard : Bool := done0 || c.hz.isInf
  let sample1 := if discard then [] else sample0
  let queue1 : ℕ := if discard then 0 else s.queueLen
  let maxedOut1 : Bool := if discard then true else maxedOut0
  if done0 then
    -- aborted: stats are not recomputed; only the sample/queue/elapsed
    -- bookkeeping and the enqueue check happen.
    let enq := decide (queue1 < 2) && !maxedOut1
    let state1 := { s with
                    sample := sample1
                    elapsedAcc := elapsed1
                    queueLen := queue1 + (if enq then 1 else 0) }
    { state := state1, maxedOut := maxedOut1, enqueued := enq, eventAborted := true }
  else
    let stats1 := computeStats sample1
    let benchInitCount1 := if maxedOut1 then s.initCountSaved else s.benchInitCount
    let benchRunning1 := if maxedOut1 then false else s.benchRunning
    let timesElapsed1 := if maxedOut1 then (now - s.timesTimeStamp) / 1000 else s.timesElapsed
    let benchHz1 := if s.benchHz.isInf then s.benchHz else JsNum.div (.fin 1) stats1.mean
    let timesCycle1 := if s.benchHz.isInf then s.timesCycle
      else stats1.mean.mul (.fin (s.benchCount : ℝ))
    let timesPeriod1 := if s.benchHz.isInf then s.timesPeriod else stats1.mean
    let enq := decide (queue1 < 2) && !maxedOut1
    let state1 := { s with
                    sample := sample1
                    stats := stats1
                    benchInitCount := benchInitCount1
                    benchRunning := benchRunning1
                    timesElapsed := timesElapsed1
                    benchHz := benchHz1
                    timesCycle := timesCycle1
                    timesPeriod := timesPeriod1
                    elapsedAcc := elapsed1
                    queueLen := queue1 + (if enq then 1 else 0) }
    { state := state1, maxedOut := maxedOut1, enqueued := enq, eventAborted := maxedOut1 }

end Benchmark

namespace Benchmark

/-- The `divisors` table of `constants.ts`, keyed by the current cycle
number (`'1': 4096, '2': 512, '3': 64, '4': 8, '5': 0`); other keys are
`undefined` (`none`).  Note the JavaScript guard in `cycle` is
`(divisor = divisors[clone.cycles]) != null`, which is `true` for the
value `0` at key `5`. -/
def divisors (k : ℕ) : Option ℚ :=
  if k = 1 then some 4096
  else if k = 2 then some 512
  else if k = 3 then some 64
  else if k = 4 then some 8
  else if k = 5 then some 0
  else none

/-- The inputs of the count-update block of `cycle` in `lifecycle.ts`
(lines 77-102): the clone's cycle number (after the `++clone.cycles`
increment), its current `count`, its `minTime`, and the clocked elapsed
seconds of the batch. -/
structure CycleIn where
  cycles : ℕ
  count : ℚ
  minTime : ℚ
  clocked : ℚ

/-- The outputs of the count-update block of `cycle`: the recorded
`times.period`, the ops/sec `hz`, the updated `initCount`, the next
iteration count (possibly `Infinity`), and whether another cycle starts. -/
structure CycleOut where
  period : JsNum ℚ
  hz : JsNum ℚ
  initCount : ℚ
  count : JsNum ℚ
  running : Bool

/-- The second `if (clone.running)` block of `cycle` in `lifecycle.ts`
(lines 77-102), entered after a batch clocked `clocked` seconds and with
no pending error:

```
period = bench.times.period = times.period = clocked / count;
bench.hz = clone.hz = 1 / period;
bench.initCount = clone.initCount = count;
clone.running = clocked < minTime;
if (clone.running) {
  if (!clocked && (divisor = divisors[clone.cycles]) != null) {
    count = Math.floor(4e6 / divisor);
  }
  if (count <= clone.count) {
    count += Math.ceil((minTime - clocked) / period);
  }
  clone.running = count != Infinity;
}
``` -/
def cycle (s : CycleIn) : CycleOut :=
  let period := JsNum.div (.fin s.clocked) (.fin s.count)
  let hz := JsNum.div (.fin 1) period
  let running1 : Bool := decide (s.clocked < s.minTime)
  if running1 then
    let count1 : JsNum ℚ :=
      if s.clocked = 0 then
        match divisors s.cycles with
        | some d => JsNum.floor (JsNum.div (.fin 4000000) (.fin d))
        | none => .fin s.count
      else .fin s.count
    let count2 : JsNum ℚ :=
      if count1.le (.fin s.count) then
        count1.add (JsNum.ceil (JsNum.div (.fin (s.minTime - s.clocked)) period))
      else count1
    { period := period, hz := hz, initCount := s.count, count := count2,
      running := !count2.isInf }
  else
    { period := period, hz := hz, initCount := s.count, count := .fin s.count,
      running := false }

end Benchmark

namespace Benchmark

/-- The rows of the `uTable` object of `constants.ts` (critical
Mann-Whitney U values at 95% confidence), keys `5`..`30`; row `k` holds the
entries for `minSize = 3 .. k`. -/
def uTableRows : List (List ℚ) :=
  [[0, 1, 2],
   [1, 2, 3, 5],
   [1, 3, 5, 6, 8],
   [2, 4, 6, 8, 10, 13],
   [2, 4, 7, 10, 12, 15, 17],
   [3, 5, 8, 11, 14, 17, 20, 23],
   [3, 6, 9, 13, 16, 19, 23, 26, 30],
   [4, 7, 11, 14, 18, 22, 26, 29, 33, 37],
   [4, 8, 12, 16, 20, 24, 28, 33, 37, 41, 45],
   [5, 9, 13, 17, 22, 26, 31, 36, 40, 45, 50, 55],
   [5, 10, 14, 19, 24, 29, 34, 39, 44, 49, 54, 59, 64],
   [6, 11, 15, 21, 26, 31, 37, 42, 47, 53, 59, 64, 70, 75],
   [6, 11, 17, 22, 28, 34, 39, 45, 51, 57, 63, 67, 75, 81, 87],
   [7, 12, 18, 24, 30, 36, 42, 48, 55, 61, 67, 74, 80, 86, 93, 99],
   [7, 13, 19, 25, 32, 38, 45, 52, 58, 65, 72, 78, 85, 92, 99, 106, 113],
   [8, 14, 20, 27, 34, 41, 48, 55, 62, 69, 76, 83, 90, 98, 105, 112, 119, 127],
   [8, 15, 22, 29, 36, 43, 50, 58, 65, 73, 80, 88, 96, 103, 111, 119, 126, 134, 142],
   [9, 16, 23, 30, 38, 45, 53, 61, 69, 77, 85, 93, 101, 109, 117, 125, 133, 141, 150, 158],
   [9, 17, 24, 32, 40, 48, 56, 64, 73, 81, 89, 98, 106, 115, 123, 132, 140, 149, 157, 166, 175],
   [10, 17, 25, 33, 42, 50, 59, 67, 76, 85, 94, 102, 111, 120, 129, 138, 147, 156, 165, 174, 183, 192],
   [10, 18, 27, 35, 44, 53, 62, 71, 80, 89, 98, 107, 117, 126, 135, 145, 154, 163, 173, 182, 192, 201, 211],
   [11, 19, 28, 37, 46, 55, 64, 74, 83, 93, 102, 112, 122, 132, 141, 151, 161, 171, 181, 191, 200, 210, 220, 230],
   [11, 20, 29, 38, 48, 57, 67, 77, 87, 97, 107, 118, 125, 138, 147, 158, 168, 178, 188, 199, 209, 219, 230, 240, 250],
   [12, 21, 30, 40, 50, 60, 70, 80, 90, 101, 111, 122, 132, 143, 154, 164, 175, 186, 196, 207, 218, 228, 239, 250, 261, 272],
   [13, 22, 32, 42, 52, 62, 73, 83, 94, 105, 116, 127, 138, 149, 160, 171, 182, 193, 204, 215, 226, 238, 249, 260, 271, 282, 294],
   [13, 23, 33, 43, 54, 65, 76, 87, 98, 109, 120, 131, 143, 154, 166, 177, 189, 200, 212, 223, 235, 247, 258, 270, 282, 293, 305, 317]]

/-- The `uTable[maxSize][minSize - 3]` lookup of `Benchmark.compare`
(`undefined`, i.e. `none`, when out of range). -/
def uTableLookup (maxSize minSize : ℕ) : Option ℚ :=
  (uTableRows.get? (maxSize - 5)).bind (fun row => row.get? (minSize - 3))

/-- `getScore(xA, sampleB)` from `Benchmark.compare`:
`sampleB.reduce((total, xB) => total + (xB > xA ? 0 : xB < xA ? 1 : 0.5), 0)`. -/
def getScore (xA : ℚ) (sampleB : List ℚ) : ℚ :=
  sampleB.foldl (fun total xB => total + (if xA < xB then 0 else if xB < xA then 1 else 0.5)) 0

/-- `getU(sampleA, sampleB)` from `Benchmark.compare`:
`sampleA.reduce((total, xA) => total + getScore(xA, sampleB), 0)`. -/
def getU (sampleA sampleB : List ℚ) : ℚ :=
  sampleA.foldl (fun total xA => total + getScore xA sampleB) 0

/-- The body of `Benchmark.compare` (benchmark.ts lines 439-481) after the
identity early exit, as a function of the two sample arrays:

```
u1 = getU(sample1, sample2); u2 = getU(sample2, sample1); u = min(u1, u2);
if (size1 + size2 > 30) {
  zStat = getZ(u);   // (u - size1*size2/2) / sqrt(size1*size2*(size1+size2+1)/12)
  return Math.abs(zStat) > 1.96 ? (u === u1 ? 1 : -1) : 0;
}
critical = maxSize < 5 || minSize < 3 ? 0 : uTable[maxSize][minSize - 3];
return u <= critical ? (u === u1 ? 1 : -1) : 0;
```

An out-of-range `uTable` lookup gives `undefined` and the JavaScript
comparison `u <= undefined` is false, hence the `none` branch returns 0. -/
noncomputable def compareSamples (sample1 sample2 : List ℚ) : ℤ :=
  let size1 := sample1.length
  let size2 := sample2.length
  let maxSize := max size1 size2
  let minSize := min size1 size2
  let u1 := getU sample1 sample2
  let u2 := getU sample2 sample1
  let u := min u1 u2
  if 30 < size1 + size2 then
    let zStat : JsNum ℝ :=
      JsNum.div (.fin ((u : ℝ) - ((size1 * size2 : ℕ) : ℝ) / 2))
        (JsNum.sqrt (.fin (((size1 * size2 * (size1 + size2 + 1) : ℕ) : ℝ) / 12)))
    if JsNum.lt (.fin (1.96 : ℝ)) zStat.abs then (if u = u1 then 1 else -1) else 0
  else
    match (if maxSize < 5 ∨ minSize < 3 then some 0 else uTableLookup maxSize minSize) with
    | some critical => if u ≤ critical then (if u = u1 then 1 else -1) else 0
    | none => 0

/-- A benchmark as seen by `compare`: an identity (standing for the
JavaScript object reference) and its `stats.sample` array. -/
structure CmpBench where
  id : ℕ
  sample : List ℚ
deriving DecidableEq

/-- `Benchmark.compare`: the `this == other` reference-equality early exit
(modelled by equality of `CmpBench`, whose `id` stands for the object
reference) followed by `compareSamples` on the two sample arrays. -/
noncomputable def compare (b1 b2 : CmpBench) : ℤ :=
  if b1 = b2 then 0 else compareSamples b1.sample b2.sample

/-- The probe loop of `getResolution` in `timers/utils.ts`, driven by the
stream `m` of values returned by successive calls of the measurement
closure (`m i` is the value of the `i`-th call):

```
let count = 30; const sample = [];
while (count--) {
  measured = measurement();
  if (measured > 0) { sample.push(measured); }
  else { sample.push(Infinity); break; }
}
```
`probeSample m c i` is the list of samples pushed with `c` loop iterations
remaining and `i` calls already made.  The carrier is `ℚ` (exact values;
the claims need no irrational measurements). -/
def probeSample (m : ℕ → ℚ) : ℕ → ℕ → List (JsNum ℚ)
  | 0, _ => []
  | c + 1, i => if 0 < m i then .fin (m i) :: probeSample m c (i + 1) else [.inf]

/-- `getResolution` from `timers/utils.ts`: the `getMean` of the probe
samples. -/
def getResolution (m : ℕ → ℚ) : JsNum ℚ :=
  getMean (probeSample m 30 0)

/-- lodash `minBy(timers, 'resolution')` as used in
`getHighestResolutionTimer`: the first element whose resolution is
strictly smaller than every later one wins (`<` comparisons, so an
earlier element is kept on ties); `undefined` (`none`) on an empty list. -/
def minByResolution : List (JsNum ℚ) → Option (JsNum ℚ)
  | [] => none
  | x :: xs => some (xs.foldl (fun best y => if y.lt best then y else best) x)

/-- `getHighestResolutionTimer` from `timers/timers.ts`, as a function of
the resolutions of the supported candidate timers: pick the minimum by
resolution, and fail if its resolution is `Infinity`.  On an empty list
(`minBy` returns `undefined`) the member access `timer.resolution` throws
a `TypeError`, modelled by the first error branch. -/
def getHighestResolutionTimer (rs : List (JsNum ℚ)) : Except String (JsNum ℚ) :=
  match minByResolution rs with
  | none => .error "TypeError: cannot read resolution of undefined"
  | some t => if t.isInf then .error "Unable to find a working timer." else .ok t

end Benchmark

namespace Benchmark

/-- The options bag saved by the `Benchmark` constructor
(`this.options = cloneDeep(options)`), restricted to the typed option
surface `BenchmarkValidOptions`; `none` means the key was not passed. -/
structure OptionsBag where
  async : Option Bool := none
  defer : Option Bool := none
  delay : Option ℚ := none
  initCount : Option ℚ := none
  maxTime : Option ℚ := none
  minSamples : Option ℚ := none
  minTime : Option ℚ := none
deriving DecidableEq

/-- The observable data state of a `Benchmark` instance for the
run/abort/reset lifecycle: the saved options bag, the configuration
fields, the dynamic counters, the sample array and the two flags. -/
structure BenchState where
  options : OptionsBag
  async : Bool
  defer : Bool
  delay : ℚ
  initCount : ℚ
  maxTime : ℚ
  minSamples : ℚ
  minTime : ℚ
  count : ℚ
  cycles : ℕ
  hz : ℚ
  sample : List ℚ
  running : Bool
  aborted : Bool
deriving DecidableEq

/-- The `Benchmark` constructor (benchmark.ts lines 110-168): class-field
defaults (`async = false`, `defer = false`, `delay = 0.005`,
`initCount = 1`, `maxTime = 5`, `minSamples = 5`, `minTime = 0`,
`count = cycles = hz = 0`, empty sample, not running, not aborted),
overridden by the keys present in the options bag, and finally
`if (!this.minTime) this.minTime = Math.max(timer.resolution / 2 / 0.01, 0.05)`. -/
def mkBench (opts : OptionsBag) (timerResolution : ℚ) : BenchState :=
  let minTime0 : ℚ := (opts.minTime.getD 0)
  { options := opts
    async := opts.async.getD false
    defer := opts.defer.getD false
    delay := opts.delay.getD 0.005
    initCount := opts.initCount.getD 1
    maxTime := opts.maxTime.getD 5
    minSamples := opts.minSamples.getD 5
    minTime := if minTime0 = 0 then max (timerResolution / 2 / 0.01) 0.05 else minTime0
    count := 0
    cycles := 0
    hz := 0
    sample := []
    running := false
    aborted := false }

/-- The property-restoring pass of `Benchmark.reset` (benchmark.ts lines
685-749).  The change source is
`assign({}, cloneDeep(this.constructor.prototype), cloneDeep(this.options))`.
In this TypeScript port the class's data fields are instance properties
created in the constructor, so `constructor.prototype` carries **no**
enumerable data properties, and the source reduces to the saved options
bag: only keys present in `options` are compared and written back.
`count`, `cycles`, `hz`, `stats`, `times`, `running` and `aborted` are
never in the source, so they are left untouched (the `reset` event and its
cancellation are not modelled: no listeners are installed). -/
def applyOptionChanges (b : BenchState) : BenchState :=
  { b with
    async := b.options.async.getD b.async
    defer := b.options.defer.getD b.defer
    delay := b.options.delay.getD b.delay
    initCount := b.options.initCount.getD b.initCount
    maxTime := b.options.maxTime.getD b.maxTime
    minSamples := b.options.minSamples.getD b.minSamples
    minTime := b.options.minTime.getD b.minTime }

/-- `Benchmark.reset` (benchmark.ts lines 672-752) with no listeners
installed.  If `running` (and not re-entered from `abort`), it routes
through `abort()` with `calledBy.reset` set: `abort` then emits, calls the
inner `reset` (which, because `calledBy.abort` is set, just applies the
option changes), and — because `resetting` is true — does **not** touch
`aborted`/`running`; the outer `reset` then returns.  If not running, the
option-change pass runs directly.  Both branches therefore reduce to
`applyOptionChanges`. -/
def resetBench (b : BenchState) : BenchState :=
  applyOptionChanges b

/-- `Benchmark.abort` (benchmark.ts lines 635-665) called publicly (not
from `reset`, no cancelling listeners): a no-op when not running;
otherwise it applies the inner `reset` (the option-change pass) and then
sets `aborted = true`, `running = false`. -/
def abortBench (b : BenchState) : BenchState :=
  if b.running then
    let b1 := applyOptionChanges b
    { b1 with aborted := true, running := false }
  else b

/-- The synchronous prefix of `Benchmark.run` (benchmark.ts lines
768-779): `running = false; reset(); running = true;
count = initCount` (the `start` event is not cancelled). -/
def runStart (b : BenchState) : BenchState :=
  let b1 := resetBench { b with running := false }
  { b1 with running := true, count := b1.initCount }

/-- A completed run: the sampling controller's termination sets
`bench.running = false` (lifecycle.ts line 259). -/
def completeBench (b : BenchState) : BenchState :=
  { b with running := false }

/-- The public operations of claim C7's operation sequences. -/
inductive BenchOp where
  | run : BenchOp
  | abort : BenchOp
  | reset : BenchOp
  | complete : BenchOp
deriving DecidableEq

/-- One public operation applied to a benchmark state. -/
def stepOp (b : BenchState) : BenchOp → BenchState
  | .run => runStart b
  | .abort => abortBench b
  | .reset => resetBench b
  | .complete => completeBench b

/-- A sequence of public operations applied in order. -/
def runOps (b : BenchState) (ops : List BenchOp) : BenchState :=
  ops.foldl stepOp b

end Benchmark

namespace Benchmark

/-- The single-quote character, written by code point to keep the template
strings readable. -/
def squote : String := String.singleton (Char.ofNat 39)

/-- The body of the generated deferred clock batch, i.e. the template
string returned by `compileFuncBodyDeferred` in `clock.ts` (lines 28-89),
up to and including the final `return \x7b uid: "..." \x7d` statement.
The `\x7b`/`\x7d` escapes denote the JavaScript braces; JavaScript
single quotes (which in the source occur only inside `//` comments) are
spliced in as `squote`.  The `id`, `fnArg`, `fn`, `setup`, `teardown` and
`uid` parameters are the template interpolations. -/
def deferredBodyPrefix (id fnArg fn setup teardown uid : String) : String :=
  "\n" ++
  "  var d" ++ id ++ " = this;\n" ++
  "  var " ++ fnArg ++ " = d" ++ id ++ ";\n" ++
  "  var m" ++ id ++ " = d" ++ id ++ ".benchmark._original;\n" ++
  "  var f" ++ id ++ " = m" ++ id ++ ".fn;\n" ++
  "  var su" ++ id ++ " = m" ++ id ++ ".setup;\n" ++
  "  var td" ++ id ++ " = m" ++ id ++ ".teardown;\n" ++
  "\n" ++
  "  // When " ++ squote ++ "deferred.cycles" ++ squote ++ " is " ++ squote ++ "0" ++ squote ++ " then...\n" ++
  "  if (!d" ++ id ++ ".cycles) \x7b\n" ++
  "    // set " ++ squote ++ "deferred.fn" ++ squote ++ ",\n" ++
  "    d" ++ id ++ ".fn = function() \x7b\n" ++
  "      var " ++ fnArg ++ " = d" ++ id ++ ";\n" ++
  "      \n" ++
  "      if(typeof f" ++ id ++ "==\"function\") \x7b\n" ++
  "        try\x7b\n" ++
  "          " ++ fn ++ "\n" ++
  "        \x7d catch (e" ++ id ++ ") \x7b\n" ++
  "          f" ++ id ++ "(d" ++ id ++ ")\n" ++
  "        \x7d\n" ++
  "      \x7d else \x7b\n" ++
  "        " ++ fn ++ "\n" ++
  "      \x7d\n" ++
  "    \x7d;\n" ++
  "\n" ++
  "    // set " ++ squote ++ "deferred.teardown" ++ squote ++ "\n" ++
  "    d" ++ id ++ ".teardown=function() \x7b \n" ++
  "      d" ++ id ++ ".cycles = 0;\n" ++
  "      \n" ++
  "      if (typeof td" ++ id ++ " == \"function\") \x7b\n" ++
  "        try \x7b\n" ++
  "          " ++ teardown ++ "\n" ++
  "        \x7d catch (e" ++ id ++ ") \x7b\n" ++
  "          td" ++ id ++ "();\n" ++
  "        \x7d\n" ++
  "      \x7d else \x7b\n" ++
  "        " ++ teardown ++ "\n" ++
  "      \x7d\n" ++
  "    \x7d;\n" ++
  "    \n" ++
  "    // execute the benchmark" ++ squote ++ "s " ++ squote ++ "setup" ++ squote ++ "\n" ++
  "    if (typeof su" ++ id ++ " == \"function\") \x7b\n" ++
  "      try \x7b\n" ++
  "        " ++ setup ++ "\n" ++
  "      \x7d catch (e" ++ id ++ ") \x7b\n" ++
  "        su" ++ id ++ "();\n" ++
  "      \x7d\n" ++
  "    \x7d else \x7b\n" ++
  "      " ++ setup ++ "\n" ++
  "    \x7d;\n" ++
  "\n" ++
  "    // start timer\n" ++
  "    t" ++ id ++ ".start(d" ++ id ++ ");\n" ++
  "  \x7d\n" ++
  "\n" ++
  "  // and then execute " ++ squote ++ "deferred.fn" ++ squote ++ " and return a dummy object.\n" ++
  "  d" ++ id ++ ".fn();\n" ++
  "\n" ++
  "  return \x7b uid: \"" ++ uid ++ "\" \x7d"

/-- The full template returned by `compileFuncBodyDeferred` in `clock.ts`:
the body above followed — exactly as in the source — by a stray single
quote and the closing whitespace of the template literal
(`return \x7b uid: "..." \x7d'`). -/
def compileFuncBodyDeferred (id fnArg fn setup teardown uid : String) : String :=
  deferredBodyPrefix id fnArg fn setup teardown uid ++ squote ++ "\n  "

/-- Lexer modes for a small JavaScript tokenizer: ordinary code, a `//`
line comment, a single- or double-quoted string literal, or a lexing
error. -/
inductive LexMode where
  | code : LexMode
  | lineComment : LexMode
  | strSingle : LexMode
  | strDouble : LexMode
  | lexError : LexMode
deriving DecidableEq

/-- One step of the JavaScript tokenizer.  The `Bool` records whether the
previous character was a `/` seen in code mode (to recognise `//`).  A raw
newline inside a single- or double-quoted string literal is an
unterminated string literal: a `SyntaxError`.  This scanner is adequate
for the generated clock bodies, which contain no escape sequences, regex
literals, template literals or block comments. -/
def lexStep : LexMode × Bool → Char → LexMode × Bool
  | (.code, sawSlash), c =>
      if c = Char.ofNat 47 then
        (if sawSlash then (.lineComment, false) else (.code, true))
      else if c = Char.ofNat 39 then (.strSingle, false)
      else if c = Char.ofNat 34 then (.strDouble, false)
      else (.code, false)
  | (.lineComment, _), c =>
      if c = Char.ofNat 10 then (.code, false) else (.lineComment, false)
  | (.strSingle, _), c =>
      if c = Char.ofNat 39 then (.code, false)
      else if c = Char.ofNat 10 then (.lexError, false)
      else (.strSingle, false)
  | (.strDouble, _), c =>
      if c = Char.ofNat 34 then (.code, false)
      else if c = Char.ofNat 10 then (.lexError, false)
      else (.strDouble, false)
  | (.lexError, _), _ => (.lexError, false)

/-- Whether a JavaScript function body tokenizes without error (every
string literal closed, ending outside a string literal): the condition
for `Function(args, body)` not to throw a `SyntaxError` at creation, as
far as string-literal well-formedness is concerned. -/
def jsLexOk (s : String) : Bool :=
  match (s.toList.foldl lexStep (LexMode.code, false)).1 with
  | .code => true
  | .lineComment => true
  | _ => false

end Benchmark

namespace Benchmark

/-- Claim-side definition (C1): the sample mean `(sum of samples) / n`. -/
noncomputable def specMean (l : List ℚ) : ℝ :=
  ((l.sum : ℚ) : ℝ) / (l.length : ℝ)

/-- Claim-side definition (C1): the sum of squared deviations from the
mean. -/
noncomputable def specVarSum (l : List ℚ) : ℝ :=
  (l.map (fun q => ((Rat.cast q : ℝ) - specMean l) ^ 2)).sum

/-- Claim-side definition (C1): the sample variance
`sum of (sample_i - mean)^2 / (n - 1)` with fallback `0` when `n = 1`. -/
noncomputable def specVariance (l : List ℚ) : ℝ :=
  if l.length = 1 then 0 else specVarSum l / ((l.length : ℝ) - 1)

/-- Claim-side definition (C1): `deviation = sqrt(variance)`. -/
noncomputable def specDeviation (l : List ℚ) : ℝ :=
  Real.sqrt (specVariance l)

/-- Claim-side definition (C1): `sem = deviation / sqrt(n)`. -/
noncomputable def specSem (l : List ℚ) : ℝ :=
  specDeviation l / Real.sqrt (l.length : ℝ)

/-- Claim-side definition (C1): the critical value is `tTable[n-1]` for
`1 ≤ n-1 ≤ 30`, `tTable[1]` when `n-1 = 0`, and `1.96` when `n-1 > 30`. -/
noncomputable def specCritical (n : ℕ) : ℝ :=
  if (n : ℤ) - 1 = 0 then (tTable 1).getD 1.96
  else if (n : ℤ) - 1 ≤ 30 then (tTable ((n : ℤ) - 1)).getD 1.96
  else 1.96

/-- Claim-side definition (C1): `moe = sem * critical`. -/
noncomputable def specMoe (l : List ℚ) : ℝ :=
  specSem l * specCritical l.length

/-- Claim-side definition (C1): `rme = (moe / mean) * 100` with fallback
`0` when `mean = 0`. -/
noncomputable def specRme (l : List ℚ) : ℝ :=
  if specMean l = 0 then 0 else (specMoe l / specMean l) * 100

/-- Casting a rational list sum to the reals commutes with summing the
cast list. -/
theorem cast_listSum (l : List ℚ) :
    ((l.sum : ℚ) : ℝ) = (l.map (fun q => (Rat.cast q : ℝ))).sum := by
  induction l with
  | nil => simp
  | cons x xs ih =>
      simp only [List.sum_cons, List.map_cons]
      push_cast
      rfl

/-- Summing casts of rationals with JavaScript addition stays finite and
agrees with the cast of the exact sum. -/
theorem foldl_add_cast_fins (l : List ℚ) (c : ℝ) :
    (l.map (fun q => JsNum.fin (Rat.cast q))).foldl JsNum.add (.fin c)
      = .fin (c + ((l.sum : ℚ) : ℝ)) := by
  induction l generalizing c with
  | nil => simp
  | cons x xs ih =>
      simp only [List.map_cons, List.foldl_cons, JsNum.add_fin_fin, ih, List.sum_cons]
      congr 1
      push_cast
      ring

/-- The JavaScript fold of squared deviations over a list of finite
values stays finite and agrees with the exact sum of squares. -/
theorem foldl_var_fins (l : List ℚ) (m c : ℝ) :
    (l.map (fun q => JsNum.fin (Rat.cast q))).foldl
      (fun (acc x : JsNum ℝ) => acc.add ((x.sub (JsNum.fin m)).mul (x.sub (JsNum.fin m))))
      (.fin c)
    = .fin (c + (l.map (fun q => ((Rat.cast q : ℝ) - m) ^ 2)).sum) := by
  induction l generalizing c with
  | nil => simp
  | cons x xs ih =>
      simp only [List.map_cons, List.foldl_cons, JsNum.sub_fin_fin, JsNum.mul_fin_fin,
        JsNum.add_fin_fin, ih, List.sum_cons]
      congr 1
      ring

/-- `getMean` on a nonempty list of finite values is the exact mean. -/
theorem getMean_fins (l : List ℚ) (h : l ≠ []) :
    getMean (l.map (fun q => JsNum.fin (Rat.cast q))) = .fin (specMean l) := by
  have hl0 : l.length ≠ 0 := fun hc => h (List.length_eq_zero.mp hc)
  have hlen : (l.length : ℝ) ≠ 0 := Nat.cast_ne_zero.mpr hl0
  rw [getMean, foldl_add_cast_fins, List.length_map,
    JsNum.div_fin_fin _ _ hlen, JsNum.or0_fin, specMean, zero_add]

/-- `getMean` of the empty sample is `0` (in the source,
`0/0 = NaN` and `NaN || 0 = 0`). -/
theorem getMean_nil : getMean ([] : List (JsNum ℝ)) = .fin 0 := by
  simp [getMean]

/-- Elements of a nonnegative list with zero sum are all zero. -/
theorem sum_zero_of_nonneg (l : List ℚ) (hnn : ∀ x ∈ l, 0 ≤ x)
    (hz : l.sum = 0) : ∀ x ∈ l, x = 0 := by
  induction l with
  | nil => simp
  | cons a as ih =>
      have ha : 0 ≤ a := hnn a (by simp)
      have has : 0 ≤ as.sum := List.sum_nonneg (fun x hx => hnn x (by simp [hx]))
      have hsum : a + as.sum = 0 := by simpa using hz
      have ha0 : a = 0 := by linarith
      have hs0 : as.sum = 0 := by linarith
      intro x hx
      rcases List.mem_cons.mp hx with h | h
      · simpa [h] using ha0
      · exact ih (fun y hy => hnn y (by simp [hy])) hs0 x h

/-- The code's critical value
`tTable[Math.round(df) || 1] || tTable.infinity` agrees with the claim's
case split for every sample size `n ≥ 1`. -/
theorem critical_eq (n : ℕ) :
    (tTable (if (n : ℤ) - 1 = 0 then 1 else (n : ℤ) - 1)).getD 1.96 = specCritical n := by
  by_cases h0 : (n : ℤ) - 1 = 0
  · simp [specCritical, h0]
  · by_cases h30 : (n : ℤ) - 1 ≤ 30
    · simp [specCritical, h0, h30]
    · have : tTable ((n : ℤ) - 1) = none := by
        rw [tTable, if_neg]
        intro hcon
        exact h30 hcon.2
      simp [specCritical, h0, h30, this]

end Benchmark

namespace Benchmark

/-- The sum of squared deviations is nonnegative. -/
theorem specVarSum_nonneg (l : List ℚ) : 0 ≤ specVarSum l := by
  apply List.sum_nonneg
  intro x hx
  obtain ⟨q, _, rfl⟩ := List.mem_map.mp hx
  exact sq_nonneg _

/-- The sample variance is nonnegative. -/
theorem specVariance_nonneg (l : List ℚ) : 0 ≤ specVariance l := by
  rw [specVariance]
  by_cases h1 : l.length = 1
  · simp [h1]
  · rw [if_neg h1]
    rcases Nat.eq_zero_or_pos l.length with h0 | hpos
    · have : l = [] := List.length_eq_zero.mp h0
      simp [this, specVarSum]
    · have h2 : 2 ≤ l.length := by omega
      have : (0 : ℝ) < (l.length : ℝ) - 1 := by
        have : (2 : ℝ) ≤ (l.length : ℝ) := by exact_mod_cast h2
        linarith
      exact div_nonneg (specVarSum_nonneg l) (le_of_lt this)

/-- The code's `mean` equals the claim's mean on a nonempty sample. -/
theorem codeMean_eq (l : List ℚ) (h : l ≠ []) : codeMean l = .fin (specMean l) := by
  rw [codeMean, codeSampleJs]
  exact getMean_fins l h

/-- The code's `variance` equals the claim's variance on a nonempty
sample. -/
theorem codeVariance_eq (l : List ℚ) (h : l ≠ []) :
    codeVariance l = .fin (specVariance l) := by
  rw [codeVariance, codeMean_eq l h, codeSampleJs, foldl_var_fins, zero_add]
  by_cases h1 : l.length = 1
  · obtain ⟨a, rfl⟩ := List.length_eq_one.mp h1
    have hv : ([a].map (fun q => ((Rat.cast q : ℝ) - specMean [a]) ^ 2)).sum = 0 := by
      simp [specMean]
    rw [hv]
    have hlen : ((([a] : List ℚ).length : ℝ) - 1) = 0 := by simp
    rw [hlen, JsNum.div_zero_zero, JsNum.or0_nan, specVariance, if_pos h1]
  · have hlen : ((l.length : ℝ) - 1) ≠ 0 := by
      intro hc
      apply h1
      have : (l.length : ℝ) = 1 := by linarith
      exact_mod_cast this
    rw [JsNum.div_fin_fin _ _ hlen, JsNum.or0_fin, specVariance, if_neg h1]
    rfl

/-- The code's `deviation` equals the claim's deviation on a nonempty
sample. -/
theorem codeDeviation_eq (l : List ℚ) (h : l ≠ []) :
    codeDeviation l = .fin (specDeviation l) := by
  rw [codeDeviation, codeVariance_eq l h,
    JsNum.sqrt_fin_nonneg _ (specVariance_nonneg l), specDeviation]

/-- The code's `sem` equals the claim's standard error on a nonempty
sample. -/
theorem codeSem_eq (l : List ℚ) (h : l ≠ []) : codeSem l = .fin (specSem l) := by
  have hpos : (0 : ℝ) < (l.length : ℝ) := by
    exact_mod_cast List.length_pos.mpr h
  have hsq : Real.sqrt (l.length : ℝ) ≠ 0 :=
    ne_of_gt (Real.sqrt_pos.mpr hpos)
  rw [codeSem, codeDeviation_eq l h, JsNum.sqrt_fin_nonneg _ (le_of_lt hpos),
    JsNum.div_fin_fin _ _ hsq, specSem]

/-- The code's critical value equals the claim's critical value. -/
theorem codeCritical_eq (l : List ℚ) : codeCritical l = specCritical l.length :=
  critical_eq l.length

/-- The code's `moe` equals the claim's margin of error on a nonempty
sample. -/
theorem codeMoe_eq (l : List ℚ) (h : l ≠ []) : codeMoe l = .fin (specMoe l) := by
  rw [codeMoe, codeSem_eq l h, codeCritical_eq, JsNum.mul_fin_fin, specMoe]

/-- If the mean of a nonnegative sample is zero, the claim's margin of
error is zero. -/
theorem specMoe_of_mean_zero (l : List ℚ) (h : l ≠ []) (hnn : ∀ x ∈ l, 0 ≤ x)
    (hM : specMean l = 0) : specMoe l = 0 := by
  have hlen : (l.length : ℝ) ≠ 0 := by
    exact_mod_cast fun hc => h (List.length_eq_zero.mp hc)
  have hsum : ((l.sum : ℚ) : ℝ) = 0 := by
    have := hM
    rw [specMean, div_eq_zero_iff] at this
    rcases this with h' | h'
    · exact h'
    · exact absurd h' hlen
  have hsumq : l.sum = 0 := by exact_mod_cast hsum
  have hall : ∀ x ∈ l, x = 0 := sum_zero_of_nonneg l hnn hsumq
  have hvs : specVarSum l = 0 := by
    apply List.sum_eq_zero
    intro x hx
    obtain ⟨q, hq, rfl⟩ := List.mem_map.mp hx
    rw [hall q hq, hM]
    norm_num
  have hv : specVariance l = 0 := by
    rw [specVariance]
    by_cases h1 : l.length = 1
    · simp [h1]
    · rw [if_neg h1, hvs, zero_div]
  rw [specMoe, specSem, specDeviation, hv, Real.sqrt_zero, zero_div, zero_mul]

/-- The code's `rme` equals the claim's relative margin of error on a
nonempty nonnegative sample. -/
theorem codeRme_eq (l : List ℚ) (h : l ≠ []) (hnn : ∀ x ∈ l, 0 ≤ x) :
    codeRme l = .fin (specRme l) := by
  rw [codeRme, codeMoe_eq l h, codeMean_eq l h]
  by_cases hM : specMean l = 0
  · rw [hM, specMoe_of_mean_zero l h hnn hM, JsNum.div_zero_zero, JsNum.mul_nan_fin,
      JsNum.or0_nan, specRme, if_pos hM]
  · rw [JsNum.div_fin_fin _ _ hM, JsNum.mul_fin_fin, JsNum.or0_fin, specRme, if_neg hM]

/-- `mean` on the empty sample: `getMean([]) = 0`. -/
theorem codeMean_nil : codeMean [] = .fin 0 := by
  rw [codeMean, codeSampleJs]
  simpa using getMean_nil

/-- `variance` on the empty sample: `0 / (0 - 1) || 0 = 0`. -/
theorem codeVariance_nil : codeVariance [] = .fin 0 := by
  rw [codeVariance, codeSampleJs]
  simp only [List.map_nil, List.foldl_nil, List.length_nil, Nat.cast_zero, zero_sub]
  rw [JsNum.div_fin_fin _ _ (by norm_num : (-1 : ℝ) ≠ 0)]
  norm_num

/-- `deviation` on the empty sample: `sqrt(0) = 0`. -/
theorem codeDeviation_nil : codeDeviation [] = .fin 0 := by
  rw [codeDeviation, codeVariance_nil, JsNum.sqrt_fin_nonneg _ le_rfl, Real.sqrt_zero]

/-- `sem` on the empty sample is `NaN` (`0 / sqrt(0) = 0 / 0`). -/
theorem codeSem_nil : codeSem [] = .nan := by
  rw [codeSem, codeDeviation_nil]
  simp only [List.length_nil, Nat.cast_zero]
  rw [JsNum.sqrt_fin_nonneg _ le_rfl, Real.sqrt_zero, JsNum.div_zero_zero]

/-- `moe` on the empty sample is `NaN`. -/
theorem codeMoe_nil : codeMoe [] = .nan := by
  rw [codeMoe, codeSem_nil, JsNum.mul_nan_fin]

/-- `rme` on the empty sample: `(NaN / 0) * 100 || 0 = 0`. -/
theorem codeRme_nil : codeRme [] = .fin 0 := by
  rw [codeRme, codeMoe_nil, JsNum.div_nan_any, JsNum.mul_nan_any, JsNum.or0_nan]

end Benchmark

namespace Benchmark

/-- On the clean path (source benchmark not aborted, clone hz finite) the
evaluation pushes the clone's period and assigns the stats computed from
the extended sample. -/
theorem evaluate_clean_path (s : EvalState) (c : CloneObs) (now : ℚ)
    (h1 : s.benchAborted = false) (h2 : c.hz.isInf = false) :
    (evaluate s c now).state.stats = computeStats (s.sample ++ [c.period]) ∧
    (evaluate s c now).state.sample = s.sample ++ [c.period] := by
  simp [evaluate, h1, h2]

/-- C1: after a per-cycle evaluation with the benchmark not aborted and
the clone clockable, the new sample is the old one extended by the
clone's period (so it has size `n ≥ 1`), and the assigned stats satisfy
`mean = (sum of samples)/n`, `variance = Σ (xᵢ - mean)² / (n - 1)` with
fallback `0` at `n = 1`, `deviation = sqrt variance`,
`sem = deviation / sqrt n`, `moe = sem * critical` and
`rme = (moe / mean) * 100` with fallback `0` at `mean = 0`, where
`critical` is `tTable[n-1]` for `1 ≤ n-1 ≤ 30`, `tTable[1]` for
`n-1 = 0`, and `1.96` for `n-1 > 30` (hypotheses: samples are
nonnegative, as the recorded periods of a monotonic timer are). -/
theorem evaluate_stats_formulas (s : EvalState) (c : CloneObs) (now : ℚ)
    (h1 : s.benchAborted = false) (h2 : c.hz.isInf = false)
    (hnn : ∀ x ∈ s.sample, 0 ≤ x) (hp : 0 ≤ c.period) :
    (evaluate s c now).state.sample = s.sample ++ [c.period] ∧
    1 ≤ (s.sample ++ [c.period]).length ∧
    (evaluate s c now).state.stats.mean = .fin (specMean (s.sample ++ [c.period])) ∧
    (evaluate s c now).state.stats.variance = .fin (specVariance (s.sample ++ [c.period])) ∧
    (evaluate s c now).state.stats.deviation = .fin (specDeviation (s.sample ++ [c.period])) ∧
    (evaluate s c now).state.stats.sem = .fin (specSem (s.sample ++ [c.period])) ∧
    (evaluate s c now).state.stats.moe
      = .fin (specSem (s.sample ++ [c.period])
          * specCritical (s.sample ++ [c.period]).length) ∧
    (evaluate s c now).state.stats.rme = .fin (specRme (s.sample ++ [c.period])) := by
  obtain ⟨hstats, hsample⟩ := evaluate_clean_path s c now h1 h2
  set l := s.sample ++ [c.period] with hl
  have hne : l ≠ [] := by simp [hl]
  have hnn' : ∀ x ∈ l, 0 ≤ x := by
    intro x hx
    rcases List.mem_append.mp hx with h | h
    · exact hnn x h
    · rw [List.mem_singleton.mp h]; exact hp
  have hlen : 1 ≤ l.length := by
    have : l ≠ [] := hne
    exact List.length_pos.mpr this
  refine ⟨hsample, hlen, ?_, ?_, ?_, ?_, ?_, ?_⟩
  · rw [hstats]; exact codeMean_eq l hne
  · rw [hstats]; exact codeVariance_eq l hne
  · rw [hstats]; exact codeDeviation_eq l hne
  · rw [hstats]; exact codeSem_eq l hne
  · rw [hstats]
    have := codeMoe_eq l hne
    rw [specMoe] at this
    exact this
  · rw [hstats]; exact codeRme_eq l hne hnn'

/-- A concrete evaluation state for the C1 witness. -/
def w1s : EvalState :=
  { benchAborted := false, benchRunning := true, benchHz := .fin 1,
    benchCount := 1, benchInitCount := 1, maxTime := 5, minSamples := 5,
    sample := [],
    stats := { mean := .fin 0, variance := .fin 0, deviation := .fin 0,
               sem := .fin 0, moe := .fin 0, rme := .fin 0 },
    timesCycle := .fin 0, timesPeriod := .fin 0, timesElapsed := 0,
    timesTimeStamp := 0, elapsedAcc := 0, initCountSaved := 1, queueLen := 1 }

/-- A concrete finishing clone for the C1 witness. -/
def w1c : CloneObs := { period := 1, timeStamp := 0, hz := .fin 1 }

/-- Witness for C1 at a concrete state. -/
theorem evaluate_stats_formulas_witness :
    (w1s.benchAborted = false) ∧ (w1c.hz.isInf = false) ∧
    ((evaluate w1s w1c 0).state.sample = w1s.sample ++ [w1c.period] ∧
     1 ≤ (w1s.sample ++ [w1c.period]).length ∧
     (evaluate w1s w1c 0).state.stats.mean
       = .fin (specMean (w1s.sample ++ [w1c.period])) ∧
     (evaluate w1s w1c 0).state.stats.variance
       = .fin (specVariance (w1s.sample ++ [w1c.period])) ∧
     (evaluate w1s w1c 0).state.stats.deviation
       = .fin (specDeviation (w1s.sample ++ [w1c.period])) ∧
     (evaluate w1s w1c 0).state.stats.sem
       = .fin (specSem (w1s.sample ++ [w1c.period])) ∧
     (evaluate w1s w1c 0).state.stats.moe
       = .fin (specSem (w1s.sample ++ [w1c.period])
           * specCritical (w1s.sample ++ [w1c.period]).length) ∧
     (evaluate w1s w1c 0).state.stats.rme
       = .fin (specRme (w1s.sample ++ [w1c.period]))) :=
  ⟨rfl, rfl,
   evaluate_stats_formulas w1s w1c 0 rfl rfl (by simp [w1s]) zero_le_one⟩

/-- On the discard path with the benchmark not aborted (the clone's hz is
`Infinity`), the sample is emptied and the stats are recomputed from the
empty sample. -/
theorem evaluate_discard_path (s : EvalState) (c : CloneObs) (now : ℚ)
    (h1 : s.benchAborted = false) (h2 : c.hz.isInf = true) :
    (evaluate s c now).state.stats = computeStats [] ∧
    (evaluate s c now).state.sample = [] := by
  simp [evaluate, h1, h2]

/-- C10: whenever the per-cycle evaluation runs with an empty sample
array (after the samples are discarded because the clone's hz was
infinite while the benchmark itself was not aborted), the assigned
`stats.mean`, `stats.variance`, `stats.deviation` and `stats.rme` are all
exactly `0` — in particular none of them is `NaN` — because the mean of
an empty sample is defined as `0` and the variance and rme computations
fall back to `0`. -/
theorem evaluate_empty_sample_stats (s : EvalState) (c : CloneObs) (now : ℚ)
    (h1 : s.benchAborted = false) (h2 : c.hz.isInf = true) :
    (evaluate s c now).state.sample = [] ∧
    (evaluate s c now).state.stats.mean = .fin 0 ∧
    (evaluate s c now).state.stats.variance = .fin 0 ∧
    (evaluate s c now).state.stats.deviation = .fin 0 ∧
    (evaluate s c now).state.stats.rme = .fin 0 ∧
    (evaluate s c now).state.stats.mean ≠ .nan ∧
    (evaluate s c now).state.stats.variance ≠ .nan ∧
    (evaluate s c now).state.stats.deviation ≠ .nan ∧
    (evaluate s c now).state.stats.rme ≠ .nan ∧
    getMean ([] : List (JsNum ℝ)) = .fin 0 := by
  obtain ⟨hstats, hsample⟩ := evaluate_discard_path s c now h1 h2
  rw [hstats]
  refine ⟨hsample, codeMean_nil, codeVariance_nil, codeDeviation_nil, codeRme_nil,
    ?_, ?_, ?_, ?_, getMean_nil⟩
  · simp only [computeStats]; rw [codeMean_nil]; intro hc; cases hc
  · simp only [computeStats]; rw [codeVariance_nil]; intro hc; cases hc
  · simp only [computeStats]; rw [codeDeviation_nil]; intro hc; cases hc
  · simp only [computeStats]; rw [codeRme_nil]; intro hc; cases hc

/-- A concrete finishing clone with infinite hz for the C10 witness. -/
def w10c : CloneObs := { period := 0, timeStamp := 0, hz := .inf }

/-- Witness for C10 at a concrete state. -/
theorem evaluate_empty_sample_stats_witness :
    (w1s.benchAborted = false) ∧ (w10c.hz.isInf = true) ∧
    ((evaluate w1s w10c 0).state.sample = [] ∧
     (evaluate w1s w10c 0).state.stats.mean = .fin 0 ∧
     (evaluate w1s w10c 0).state.stats.variance = .fin 0 ∧
     (evaluate w1s w10c 0).state.stats.deviation = .fin 0 ∧
     (evaluate w1s w10c 0).state.stats.rme = .fin 0 ∧
     (evaluate w1s w10c 0).state.stats.mean ≠ .nan ∧
     (evaluate w1s w10c 0).state.stats.variance ≠ .nan ∧
     (evaluate w1s w10c 0).state.stats.deviation ≠ .nan ∧
     (evaluate w1s w10c 0).state.stats.rme ≠ .nan ∧
     getMean ([] : List (JsNum ℝ)) = .fin 0) :=
  ⟨rfl, rfl, evaluate_empty_sample_stats w1s w10c 0 rfl rfl⟩

end Benchmark

namespace Benchmark

/-- Both branches of `cycle` record the same `times.period` and `hz`. -/
theorem cycle_period_hz (s : CycleIn) :
    (cycle s).period = JsNum.div (.fin s.clocked) (.fin s.count) ∧
    (cycle s).hz = JsNum.div (.fin 1) (JsNum.div (.fin s.clocked) (.fin s.count)) := by
  simp only [cycle]
  split <;> exact ⟨rfl, rfl⟩

/-- On the clean path the evaluation sets `bench.hz = 1 / mean`. -/
theorem evaluate_hz_path (s : EvalState) (c : CloneObs) (now : ℚ)
    (h1 : s.benchAborted = false) (h2 : c.hz.isInf = false)
    (h3 : s.benchHz.isInf = false) :
    (evaluate s c now).state.benchHz
      = JsNum.div (.fin 1) (computeStats (s.sample ++ [c.period])).mean := by
  simp [evaluate, h1, h2, h3]

/-- C3: after a successful cycle (positive clocked time, positive count)
the recorded `times.period` equals `clocked / count` and `hz` equals
`1 / period`, so `hz * period = 1` exactly; and after a per-cycle
evaluation with positive mean (in particular at completion) the source
benchmark's `hz` is set to `1 / stats.mean`, so
`|hz * stats.mean - 1| < 1e-9`. -/
theorem hz_period_inverse :
    (∀ s : CycleIn, 0 < s.clocked → 0 < s.count →
      (cycle s).period = .fin (s.clocked / s.count) ∧
      (cycle s).hz = JsNum.div (.fin 1) ((cycle s).period) ∧
      ((cycle s).hz).mul ((cycle s).period) = .fin 1) ∧
    (∀ (s : EvalState) (c : CloneObs) (now : ℚ),
      s.benchAborted = false → c.hz.isInf = false → s.benchHz.isInf = false →
      0 < specMean (s.sample ++ [c.period]) →
      ∃ h m : ℝ, (evaluate s c now).state.benchHz = .fin h ∧
        (evaluate s c now).state.stats.mean = .fin m ∧
        |h * m - 1| < 1e-9) := by
  constructor
  · intro s hc hk
    obtain ⟨hper, hhz⟩ := cycle_period_hz s
    have hk0 : s.count ≠ 0 := ne_of_gt hk
    have hq : s.clocked / s.count ≠ 0 := by positivity
    have hper' : (cycle s).period = .fin (s.clocked / s.count) := by
      rw [hper, JsNum.div_fin_fin _ _ hk0]
    refine ⟨hper', by rw [hhz, hper', JsNum.div_fin_fin _ _ hk0], ?_⟩
    rw [hhz, hper', JsNum.div_fin_fin _ _ hk0, JsNum.div_fin_fin _ _ hq,
      JsNum.mul_fin_fin, one_div, inv_mul_cancel₀ hq]
  · intro s c now h1 h2 h3 hM
    obtain ⟨hstats, _⟩ := evaluate_clean_path s c now h1 h2
    have hmean : (evaluate s c now).state.stats.mean
        = .fin (specMean (s.sample ++ [c.period])) := by
      rw [hstats]
      exact codeMean_eq _ (by simp)
    have hM0 : specMean (s.sample ++ [c.period]) ≠ 0 := ne_of_gt hM
    refine ⟨1 / specMean (s.sample ++ [c.period]), specMean (s.sample ++ [c.period]),
      ?_, hmean, ?_⟩
    · rw [evaluate_hz_path s c now h1 h2 h3]
      have : (computeStats (s.sample ++ [c.period])).mean
          = .fin (specMean (s.sample ++ [c.period])) :=
        codeMean_eq _ (by simp)
      rw [this, JsNum.div_fin_fin _ _ hM0]
    · rw [one_div, inv_mul_cancel₀ hM0]
      norm_num

/-- A concrete evaluation state for the C3 witness. -/
def w3s : EvalState :=
  { benchAborted := false, benchRunning := true, benchHz := .fin 1,
    benchCount := 1, benchInitCount := 1, maxTime := 5, minSamples := 5,
    sample := [],
    stats := { mean := .fin 0, variance := .fin 0, deviation := .fin 0,
               sem := .fin 0, moe := .fin 0, rme := .fin 0 },
    timesCycle := .fin 0, timesPeriod := .fin 0, timesElapsed := 0,
    timesTimeStamp := 0, elapsedAcc := 0, initCountSaved := 1, queueLen := 1 }

/-- A concrete finishing clone for the C3 witness. -/
def w3c : CloneObs := { period := 1, timeStamp := 0, hz := .fin 1 }

/-- Witness for C3 at concrete inputs: the cycle inputs
`cycles = 1, count = 2, minTime = 1, clocked = 4` and an evaluation with
sample `[1]`. -/
theorem hz_period_inverse_witness :
    ((0 : ℚ) < (4 : ℚ) ∧ (0 : ℚ) < (2 : ℚ) ∧
      ((cycle ⟨1, 2, 1, 4⟩).period = .fin ((4 : ℚ) / 2) ∧
       (cycle ⟨1, 2, 1, 4⟩).hz = JsNum.div (.fin 1) ((cycle ⟨1, 2, 1, 4⟩).period) ∧
       ((cycle ⟨1, 2, 1, 4⟩).hz).mul ((cycle ⟨1, 2, 1, 4⟩).period) = .fin 1)) ∧
    (0 < specMean (w3s.sample ++ [w3c.period]) ∧
      ∃ h m : ℝ, (evaluate w3s w3c 0).state.benchHz = .fin h ∧
        (evaluate w3s w3c 0).state.stats.mean = .fin m ∧
        |h * m - 1| < 1e-9) := by
  have h4 : (0 : ℚ) < 4 := by norm_num
  have h2 : (0 : ℚ) < 2 := by norm_num
  have hM : 0 < specMean (w3s.sample ++ [w3c.period]) := by
    norm_num [specMean, w3s, w3c]
  exact ⟨⟨h4, h2, hz_period_inverse.1 ⟨1, 2, 1, 4⟩ h4 h2⟩,
    ⟨hM, hz_period_inverse.2 w3s w3c 0 rfl rfl rfl hM⟩⟩

end Benchmark

namespace Benchmark

/-- Helper: in the zero-elapsed branch with a nonzero divisor whose table
count exceeds the current count, the table count is adopted and cycling
continues. -/
theorem cycle_zero_table_gt (s : CycleIn)
    (hrun : s.clocked < s.minTime) (d : ℚ) (hz : s.clocked = 0)
    (hd : divisors s.cycles = some d) (hd0 : d ≠ 0)
    (hgt : s.count < ((⌊(4000000 : ℚ) / d⌋ : ℤ) : ℚ)) :
    (cycle s).count = .fin ((⌊(4000000 : ℚ) / d⌋ : ℤ) : ℚ) ∧
    (cycle s).running = true := by
  have hr : decide ((0 : ℚ) < s.minTime) = true := decide_eq_true (hz ▸ hrun)
  have hle : JsNum.le (.fin ((⌊(4000000 : ℚ) / d⌋ : ℤ) : ℚ)) (.fin s.count) = false := by
    simp [not_le.mpr hgt]
  simp only [cycle, hr, if_true, hz, hd, if_pos rfl, JsNum.div_fin_fin _ _ hd0,
    JsNum.floor_fin, hle, Bool.false_eq_true, if_false, JsNum.isInf_fin,
    Bool.not_false]
  exact ⟨trivial, trivial⟩

/-- Helper: in the zero-elapsed branch with a nonzero divisor whose table
count does not exceed the current count, the increment
`Math.ceil((minTime - 0) / period)` is added with `period = 0`, making the
count `Infinity` and stopping the run. -/
theorem cycle_zero_table_le (s : CycleIn) (hk : 0 < s.count)
    (hrun : s.clocked < s.minTime) (hmt : 0 < s.minTime) (d : ℚ)
    (hz : s.clocked = 0) (hd : divisors s.cycles = some d) (hd0 : d ≠ 0)
    (hle : ((⌊(4000000 : ℚ) / d⌋ : ℤ) : ℚ) ≤ s.count) :
    (cycle s).count = .inf ∧ (cycle s).running = false := by
  have hr : decide ((0 : ℚ) < s.minTime) = true := decide_eq_true (hz ▸ hrun)
  have hk0 : s.count ≠ 0 := ne_of_gt hk
  have hle' : JsNum.le (.fin ((⌊(4000000 : ℚ) / d⌋ : ℤ) : ℚ)) (.fin s.count) = true := by
    simp [hle]
  simp only [cycle, hr, if_true, hz, hd, if_pos rfl, JsNum.div_fin_fin _ _ hd0,
    JsNum.div_fin_fin _ _ hk0, JsNum.floor_fin, hle', if_true, zero_div, sub_zero,
    JsNum.div_fin_zero_pos _ hmt, JsNum.ceil_inf, JsNum.add_fin_inf,
    JsNum.isInf_inf, Bool.not_true]
  exact ⟨trivial, trivial⟩

/-- Helper: at cycle 5 with zero elapsed the divisor is `0`, so the table
count is `Math.floor(4e6 / 0) = Infinity` and the run stops. -/
theorem cycle_five_inf (s : CycleIn)
    (hrun : s.clocked < s.minTime) (hz : s.clocked = 0) (h5 : s.cycles = 5) :
    (cycle s).count = .inf ∧ (cycle s).running = false := by
  have hr : decide ((0 : ℚ) < s.minTime) = true := decide_eq_true (hz ▸ hrun)
  have hd : divisors s.cycles = some 0 := by rw [h5]; rfl
  simp only [cycle, hr, if_true, hz, hd, if_pos rfl,
    JsNum.div_fin_zero_pos _ (by norm_num : (0 : ℚ) < 4000000), JsNum.floor_inf,
    JsNum.le_inf_fin, Bool.false_eq_true, if_false, JsNum.isInf_inf, Bool.not_true]
  exact ⟨trivial, trivial⟩

/-- Helper: with nonzero elapsed (below `minTime`) the next count is
`count + Math.ceil((minTime - clocked) / period)`. -/
theorem cycle_nonzero_increment (s : CycleIn) (hk : 0 < s.count)
    (hrun : s.clocked < s.minTime) (hz : s.clocked ≠ 0) :
    (cycle s).count
      = .fin (s.count + ((⌈(s.minTime - s.clocked) / (s.clocked / s.count)⌉ : ℤ) : ℚ)) := by
  have hr : decide (s.clocked < s.minTime) = true := decide_eq_true hrun
  have hk0 : s.count ≠ 0 := ne_of_gt hk
  have hq : s.clocked / s.count ≠ 0 := div_ne_zero hz hk0
  have hle : JsNum.le (JsNum.fin s.count) (.fin s.count) = true := by simp
  simp only [cycle, hr, if_true, if_neg hz, JsNum.div_fin_fin _ _ hk0,
    JsNum.div_fin_fin _ _ hq, JsNum.ceil_fin, hle, if_true, JsNum.add_fin_fin]

/-- C2 (amended): in the cycle controller, when a cycle finishes with
`clocked < minTime` (run continuing, positive count and `minTime`):
if `clocked = 0` and the cycle number `k` has a nonzero divisor entry
(`k` in 1..4) **and the table count `floor(4e6 / d_k)` exceeds the
current count**, the new count is `floor(4e6 / d_k)`; if the table count
does not exceed the current count, the controller additionally adds
`ceil((minTime - 0) / period)` with `period = 0`, so the count becomes
`Infinity` and the run stops; at cycle 5 the divisor is `0`, the computed
count is `Infinity`, and the controller stops instead of starting another
cycle; otherwise (`clocked ≠ 0`) the new count is
`count + ceil((minTime - clocked) / period)` with `period = clocked / count`. -/
theorem cycle_count_update (s : CycleIn) (hk : 0 < s.count)
    (hrun : s.clocked < s.minTime) (hmt : 0 < s.minTime) :
    (∀ d : ℚ, s.clocked = 0 → divisors s.cycles = some d → d ≠ 0 →
      s.count < ((⌊(4000000 : ℚ) / d⌋ : ℤ) : ℚ) →
      (cycle s).count = .fin ((⌊(4000000 : ℚ) / d⌋ : ℤ) : ℚ)) ∧
    (∀ d : ℚ, s.clocked = 0 → divisors s.cycles = some d → d ≠ 0 →
      ((⌊(4000000 : ℚ) / d⌋ : ℤ) : ℚ) ≤ s.count →
      (cycle s).count = .inf ∧ (cycle s).running = false) ∧
    (s.clocked = 0 → s.cycles = 5 →
      (cycle s).count = .inf ∧ (cycle s).running = false) ∧
    (s.clocked ≠ 0 →
      (cycle s).count
        = .fin (s.count + ((⌈(s.minTime - s.clocked) / (s.clocked / s.count)⌉ : ℤ) : ℚ))) :=
  ⟨fun d hz hd hd0 hgt => (cycle_zero_table_gt s hrun d hz hd hd0 hgt).1,
   fun d hz hd hd0 hle => cycle_zero_table_le s hk hrun hmt d hz hd hd0 hle,
   fun hz h5 => cycle_five_inf s hrun hz h5,
   fun hz => cycle_nonzero_increment s hk hrun hz⟩

/-- Witness for C2 at concrete inputs: cycle number 1 with `count = 1`,
`minTime = 1`, `clocked = 0` takes the table count `floor(4e6/4096) = 976`;
and cycle number 1 with `clocked = 1/2` adds `ceil((1 - 1/2)/(1/2)) = 1`. -/
theorem cycle_count_update_witness :
    ((0 : ℚ) < 1 ∧ (0 : ℚ) < 1 ∧ (0 : ℚ) < 1 ∧
      divisors 1 = some 4096 ∧ (4096 : ℚ) ≠ 0 ∧
      (1 : ℚ) < ((⌊(4000000 : ℚ) / 4096⌋ : ℤ) : ℚ) ∧
      (cycle ⟨1, 1, 1, 0⟩).count = .fin ((⌊(4000000 : ℚ) / 4096⌋ : ℤ) : ℚ)) ∧
    ((1 : ℚ) / 2 < 1 ∧ ((1 : ℚ) / 2) ≠ 0 ∧
      (cycle ⟨1, 1, 1, 1 / 2⟩).count
        = .fin (1 + ((⌈((1 : ℚ) - 1 / 2) / ((1 / 2) / 1)⌉ : ℤ) : ℚ))) := by
  have hgt : (1 : ℚ) < ((⌊(4000000 : ℚ) / 4096⌋ : ℤ) : ℚ) := by
    have h976 : (976 : ℤ) ≤ ⌊(4000000 : ℚ) / 4096⌋ := Int.le_floor.mpr (by norm_num)
    have : ((976 : ℤ) : ℚ) ≤ ((⌊(4000000 : ℚ) / 4096⌋ : ℤ) : ℚ) := by exact_mod_cast h976
    linarith [this]
  refine ⟨⟨one_pos, one_pos, one_pos, rfl, by norm_num, hgt, ?_⟩,
          ⟨by norm_num, by norm_num, ?_⟩⟩
  · exact (cycle_count_update ⟨1, 1, 1, 0⟩ one_pos one_pos one_pos).1 4096 rfl rfl
      (by norm_num) hgt
  · exact (cycle_count_update ⟨1, 1, 1, 1 / 2⟩ one_pos (by norm_num) one_pos).2.2.2
      (by norm_num)

/-- Counterexample for C2 as stated: at cycle number 2 with current count
`10^6`, `minTime = 1/20` and zero elapsed, the claim predicts the new
count `floor(4e6 / 512) = 7812`, but because that table count does not
exceed the current count the code adds `ceil(minTime / 0) = Infinity`:
the computed count is `Infinity` and the controller stops. -/
theorem cycle_zero_elapsed_counterexample :
    (cycle ⟨2, 1000000, 1 / 20, 0⟩).count = .inf ∧
    (cycle ⟨2, 1000000, 1 / 20, 0⟩).count
      ≠ .fin ((⌊(4000000 : ℚ) / 512⌋ : ℤ) : ℚ) ∧
    (cycle ⟨2, 1000000, 1 / 20, 0⟩).running = false := by
  have hle : ((⌊(4000000 : ℚ) / 512⌋ : ℤ) : ℚ) ≤ 1000000 := by
    have h1 : ((⌊(4000000 : ℚ) / 512⌋ : ℤ) : ℚ) ≤ (4000000 : ℚ) / 512 := Int.floor_le _
    have h2 : (4000000 : ℚ) / 512 ≤ 1000000 := by norm_num
    linarith
  obtain ⟨hc, hr⟩ := cycle_zero_table_le ⟨2, 1000000, 1 / 20, 0⟩ (by norm_num)
    (by norm_num) (by norm_num) 512 rfl rfl (by norm_num) hle
  refine ⟨hc, ?_, hr⟩
  rw [hc]
  intro hcon
  cases hcon

end Benchmark

namespace Benchmark

/-- The scenario sample `A = [0.01, 0.011, 0.012, 0.010, 0.011]`. -/
def sampleA : List ℚ := [1/100, 11/1000, 12/1000, 1/100, 11/1000]

/-- The scenario sample `B = [0.02, 0.021, 0.019, 0.020, 0.022]`. -/
def sampleB : List ℚ := [2/100, 21/1000, 19/1000, 2/100, 22/1000]

/-- C4: `compare` depends only on the two benchmarks' `stats.sample`
arrays apart from the reference-identity early exit; `x.compare(x) = 0`
for every benchmark `x`; and on the scenario samples,
`A.compare(B) = 1` and `B.compare(A) = -1`. -/
theorem compare_mann_whitney :
    (∀ b1 b2 : CmpBench, b1 ≠ b2 →
      compare b1 b2 = compareSamples b1.sample b2.sample) ∧
    (∀ x : CmpBench, compare x x = 0) ∧
    compare ⟨1, sampleA⟩ ⟨2, sampleB⟩ = 1 ∧
    compare ⟨2, sampleB⟩ ⟨1, sampleA⟩ = -1 := by
  have hpure : ∀ b1 b2 : CmpBench, b1 ≠ b2 →
      compare b1 b2 = compareSamples b1.sample b2.sample := by
    intro b1 b2 h
    rw [compare, if_neg h]
  have hAB : (⟨1, sampleA⟩ : CmpBench) ≠ ⟨2, sampleB⟩ := by
    intro h
    cases h
  have hBA : (⟨2, sampleB⟩ : CmpBench) ≠ ⟨1, sampleA⟩ := by
    intro h
    cases h
  refine ⟨hpure, fun x => by rw [compare, if_pos rfl], ?_, ?_⟩
  · rw [hpure _ _ hAB]
    norm_num [compareSamples, getU, getScore, uTableLookup, uTableRows,
      sampleA, sampleB]
  · rw [hpure _ _ hBA]
    norm_num [compareSamples, getU, getScore, uTableLookup, uTableRows,
      sampleA, sampleB]

/-- Witness for C4: the purity clause and the identity clause applied at
concrete benchmarks. -/
theorem compare_mann_whitney_witness :
    ((⟨1, sampleA⟩ : CmpBench) ≠ ⟨2, sampleB⟩ ∧
      compare ⟨1, sampleA⟩ ⟨2, sampleB⟩ = compareSamples sampleA sampleB) ∧
    compare ⟨1, sampleA⟩ ⟨1, sampleA⟩ = 0 := by
  have hne : (⟨1, sampleA⟩ : CmpBench) ≠ ⟨2, sampleB⟩ := by
    intro h
    cases h
  exact ⟨⟨hne, compare_mann_whitney.1 _ _ hne⟩,
    compare_mann_whitney.2.1 ⟨1, sampleA⟩⟩

end Benchmark

namespace Benchmark

/-- `lt` is irreflexive on every JavaScript number (including the special
values). -/
theorem jsLt_irrefl (x : JsNum ℚ) : JsNum.lt x x = false := by
  cases x <;> simp [JsNum.lt]

/-- `lt` is transitive. -/
theorem jsLt_trans {a b c : JsNum ℚ} (h1 : JsNum.lt a b = true)
    (h2 : JsNum.lt b c = true) : JsNum.lt a c = true := by
  cases a <;> cases b <;> cases c <;> simp_all [JsNum.lt]
  exact lt_trans h1 h2

/-- `le` followed by `lt` is `lt`. -/
theorem jsLe_lt_trans {a b c : JsNum ℚ} (h1 : JsNum.le a b = true)
    (h2 : JsNum.lt b c = true) : JsNum.lt a c = true := by
  cases a <;> cases b <;> cases c <;> simp_all [JsNum.lt, JsNum.le]
  exact lt_of_le_of_lt h1 h2

/-- Totality on non-`NaN` values: if `x < y` fails then `y <= x`. -/
theorem jsLe_of_not_lt {x y : JsNum ℚ} (hx : x ≠ .nan) (hy : y ≠ .nan)
    (h : JsNum.lt x y = false) : JsNum.le y x = true := by
  cases x <;> cases y <;> simp_all [JsNum.lt, JsNum.le]

/-- The lodash `minBy` fold returns its seed or a list element. -/
theorem foldl_min_mem (xs : List (JsNum ℚ)) (b : JsNum ℚ) :
    xs.foldl (fun best y => if y.lt best then y else best) b = b ∨
    xs.foldl (fun best y => if y.lt best then y else best) b ∈ xs := by
  induction xs generalizing b with
  | nil => left; rfl
  | cons y ys ih =>
      rcases ih (if y.lt b then y else b) with h | h
      · rw [List.foldl_cons] at *
        rw [h]
        by_cases hlt : y.lt b = true
        · right; simp [hlt]
        · left; simp [hlt]
      · right
        rw [List.foldl_cons]
        exact List.mem_cons_of_mem _ h

/-- No element (nor the seed) of the lodash `minBy` fold is strictly below
the result, provided no `NaN` is involved. -/
theorem foldl_min_not_lt (xs : List (JsNum ℚ)) (b : JsNum ℚ) (hb : b ≠ .nan)
    (hxs : ∀ x ∈ xs, x ≠ .nan) :
    JsNum.lt b (xs.foldl (fun best y => if y.lt best then y else best) b) = false ∧
    ∀ z ∈ xs,
      JsNum.lt z (xs.foldl (fun best y => if y.lt best then y else best) b) = false := by
  induction xs generalizing b with
  | nil => exact ⟨jsLt_irrefl b, by simp⟩
  | cons y ys ih =>
      have hy : y ≠ .nan := hxs y (by simp)
      have htail : ∀ x ∈ ys, x ≠ .nan := fun x hx => hxs x (by simp [hx])
      rw [List.foldl_cons]
      by_cases hlt : y.lt b = true
      · rw [if_pos hlt]
        obtain ⟨h1, h2⟩ := ih y hy htail
        constructor
        · by_cases hbr : JsNum.lt b (ys.foldl (fun best y => if y.lt best then y else best) y) = true
          · have := jsLt_trans hlt hbr
            rw [this] at h1
            cases h1
          · exact Bool.not_eq_true _ ▸ (by simpa using hbr)
        · intro z hz
          rcases List.mem_cons.mp hz with rfl | hz'
          · exact h1
          · exact h2 z hz'
      · rw [if_neg hlt]
        obtain ⟨h1, h2⟩ := ih b hb htail
        refine ⟨h1, ?_⟩
        intro z hz
        rcases List.mem_cons.mp hz with rfl | hz'
        · have hle : JsNum.le b z = true :=
            jsLe_of_not_lt hy hb (by simpa using hlt)
          by_cases hzr : JsNum.lt z (ys.foldl (fun best y => if y.lt best then y else best) b) = true
          · have := jsLe_lt_trans hle hzr
            rw [this] at h1
            cases h1
          · simpa using hzr
        · exact h2 z hz'

end Benchmark

namespace Benchmark

/-- When all probed measurements are positive, the probe loop collects
exactly the measured values (one per iteration). -/
theorem probeSample_all_pos (m : ℕ → ℚ) :
    ∀ (c i : ℕ), (∀ j, i ≤ j → j < i + c → 0 < m j) →
    probeSample m c i = (List.range c).map (fun k => .fin (m (i + k))) := by
  intro c
  induction c with
  | zero => intro i _; rfl
  | succ c ih =>
      intro i h
      have hi : 0 < m i := h i le_rfl (by omega)
      rw [probeSample, if_pos hi, List.range_succ_eq_map, List.map_cons]
      congr 1
      rw [ih (i + 1) (fun j hj1 hj2 => h j (by omega) (by omega)), List.map_map]
      apply List.map_congr_left
      intro k _
      simp only [Function.comp_apply]
      rw [show i + 1 + k = i + (k + 1) by omega]

/-- When some of the first `c` measurements is non-positive, the probe
loop ends with an `Infinity` entry after a (possibly empty) prefix of
positive measurements. -/
theorem probeSample_broken (m : ℕ → ℚ) :
    ∀ (c i : ℕ), (∃ j, j < c ∧ m (i + j) ≤ 0) →
    ∃ pre : List ℚ, probeSample m c i = (pre.map JsNum.fin) ++ [.inf] := by
  intro c
  induction c with
  | zero => intro i h; obtain ⟨j, hj, _⟩ := h; omega
  | succ c ih =>
      intro i h
      by_cases hi : 0 < m i
      · obtain ⟨j, hj, hm⟩ := h
        have hj0 : j ≠ 0 := by
          intro hc
          rw [hc, Nat.add_zero] at hm
          exact absurd hi (not_lt.mpr hm)
        obtain ⟨j', rfl⟩ := Nat.exists_eq_succ_of_ne_zero hj0
        obtain ⟨pre, hpre⟩ := ih (i + 1) ⟨j', by omega, by
          have : i + 1 + j' = i + (j' + 1) := by omega
          rw [this]; exact hm⟩
        refine ⟨m i :: pre, ?_⟩
        rw [probeSample, if_pos hi, hpre, List.map_cons, List.cons_append]
      · refine ⟨[], ?_⟩
        rw [probeSample, if_neg hi, List.map_nil, List.nil_append]

end Benchmark

namespace Benchmark

/-- A JavaScript number that passes the `== Infinity` test is `Infinity`. -/
theorem isInf_eq_inf {x : JsNum ℚ} (h : x.isInf = true) : x = .inf := by
  cases x <;> simp_all [JsNum.isInf]

/-- Every non-`NaN` value other than `Infinity` is strictly below
`Infinity`. -/
theorem lt_inf_of_ne {z : JsNum ℚ} (h1 : z ≠ .nan) (h2 : z ≠ .inf) :
    JsNum.lt z .inf = true := by
  cases z <;> simp_all [JsNum.lt]

/-- C5: (probe) when the first 30 measured deltas are positive, the probe
collects exactly 30 samples (at least 30 iterations are performed) and
the resolution is their arithmetic mean; a non-positive delta makes the
resolution `Infinity`; (selection) the initialization fails (throws) iff
every supported candidate's resolution is `Infinity` (vacuously with no
supported candidates), and an elected timer is a candidate below which no
candidate's resolution lies. -/
theorem timer_probe_and_selection :
    (∀ m : ℕ → ℚ, (∀ i, i < 30 → 0 < m i) →
      (probeSample m 30 0).length = 30 ∧
      getResolution m = .fin (((List.range 30).map m).sum / 30)) ∧
    (∀ m : ℕ → ℚ, (∃ i, i < 30 ∧ m i ≤ 0) → getResolution m = .inf) ∧
    (∀ rs : List (JsNum ℚ), (∀ r ∈ rs, r ≠ .nan) →
      ((∃ e, getHighestResolutionTimer rs = .error e) ↔ ∀ r ∈ rs, r = .inf) ∧
      (∀ t, getHighestResolutionTimer rs = .ok t →
        t ∈ rs ∧ ∀ r ∈ rs, JsNum.lt r t = false)) := by
  refine ⟨?_, ?_, ?_⟩
  · intro m hpos
    have hp : probeSample m 30 0 = (List.range 30).map (fun k => .fin (m k)) := by
      have := probeSample_all_pos m 30 0 (fun j _ hj2 => hpos j (by omega))
      simpa using this
    constructor
    · rw [hp, List.length_map, List.length_range]
    · rw [getResolution, hp]
      have hmap : (List.range 30).map (fun k => JsNum.fin (m k))
          = ((List.range 30).map m).map JsNum.fin := by
        rw [List.map_map]; rfl
      rw [getMean, hmap, JsNum.foldl_add_fins, List.length_map, List.length_map,
        List.length_range]
      rw [JsNum.div_fin_fin _ _ (by norm_num : ((30 : ℕ) : ℚ) ≠ 0), JsNum.or0_fin,
        zero_add]
      norm_num
  · intro m hneg
    obtain ⟨i, hi, hm⟩ := hneg
    obtain ⟨pre, hpre⟩ := probeSample_broken m 30 0 ⟨i, hi, by simpa using hm⟩
    rw [getResolution, hpre, getMean, JsNum.foldl_add_fins_inf]
    have hlen : (0 : ℚ) ≤ (((pre.map JsNum.fin) ++ [JsNum.inf]).length : ℚ) := by
      positivity
    rw [JsNum.div_inf_fin _ hlen, JsNum.or0_inf]
  · intro rs hnn
    cases rs with
    | nil =>
        constructor
        · constructor
          · intro _ r hr
            cases hr
          · intro _
            exact ⟨"TypeError: cannot read resolution of undefined", rfl⟩
        · intro t ht
          cases ht
    | cons x xs =>
        have hx : x ≠ .nan := hnn x (by simp)
        have hxs : ∀ r ∈ xs, r ≠ .nan := fun r hr => hnn r (by simp [hr])
        set r := xs.foldl (fun best y => if y.lt best then y else best) x with hr
        have hmem : r = x ∨ r ∈ xs := foldl_min_mem xs x
        have hmem' : r ∈ x :: xs := by
          rcases hmem with h | h
          · rw [h]; exact List.mem_cons_self x xs
          · exact List.mem_cons_of_mem _ h
        obtain ⟨hminx, hmins⟩ := foldl_min_not_lt xs x hx hxs
        have hmin : ∀ z ∈ x :: xs, JsNum.lt z r = false := by
          intro z hz
          rcases List.mem_cons.mp hz with rfl | hz'
          · exact hminx
          · exact hmins z hz'
        constructor
        · constructor
          · rintro ⟨e, he⟩ z hz
            rw [getHighestResolutionTimer] at he
            simp only [minByResolution] at he
            by_cases hinf : r.isInf = true
            · have hre : r = .inf := isInf_eq_inf hinf
              by_contra hne
              have hznan : z ≠ .nan := hnn z hz
              have : JsNum.lt z r = true := by
                rw [hre]
                exact lt_inf_of_ne hznan hne
              rw [hmin z hz] at this
              cases this
            · rw [← hr, if_neg hinf] at he
              cases he
          · intro hall
            have hrinf : r = .inf := hall r hmem'
            refine ⟨"Unable to find a working timer.", ?_⟩
            rw [getHighestResolutionTimer]
            simp only [minByResolution, ← hr, hrinf]
            rfl
        · intro t ht
          rw [getHighestResolutionTimer] at ht
          simp only [minByResolution, ← hr] at ht
          by_cases hinf : r.isInf = true
          · rw [if_pos hinf] at ht
            cases ht
          · rw [if_neg hinf] at ht
            cases ht
            exact ⟨hmem', hmin⟩

end Benchmark

namespace Benchmark

/-- Witness for C5: a constant positive measurement stream, a broken
(zero) measurement stream, and the candidate resolutions
`[Infinity, 1]`. -/
theorem timer_probe_and_selection_witness :
    ((∀ i, i < 30 → (0 : ℚ) < (fun _ => (1 : ℚ)) i) ∧
      ((probeSample (fun _ => (1 : ℚ)) 30 0).length = 30 ∧
       getResolution (fun _ => (1 : ℚ))
         = .fin (((List.range 30).map (fun _ => (1 : ℚ))).sum / 30))) ∧
    ((∃ i, i < 30 ∧ (fun _ => (0 : ℚ)) i ≤ 0) ∧
      getResolution (fun _ => (0 : ℚ)) = .inf) ∧
    ((∀ r ∈ [JsNum.inf, JsNum.fin (1 : ℚ)], r ≠ .nan) ∧
      ((∃ e, getHighestResolutionTimer [.inf, .fin 1] = .error e) ↔
        ∀ r ∈ [JsNum.inf, JsNum.fin (1 : ℚ)], r = .inf) ∧
      (∀ t, getHighestResolutionTimer [.inf, .fin 1] = .ok t →
        t ∈ [JsNum.inf, JsNum.fin (1 : ℚ)] ∧
        ∀ r ∈ [JsNum.inf, JsNum.fin (1 : ℚ)], JsNum.lt r t = false)) := by
  have h1 : ∀ i, i < 30 → (0 : ℚ) < (fun _ => (1 : ℚ)) i := by
    intro i _
    norm_num
  have h2 : ∃ i, i < 30 ∧ (fun _ => (0 : ℚ)) i ≤ 0 := ⟨0, by norm_num, le_refl 0⟩
  have h3 : ∀ r ∈ [JsNum.inf, JsNum.fin (1 : ℚ)], r ≠ .nan := by
    intro r hr
    rcases List.mem_cons.mp hr with rfl | hr'
    · intro hc; cases hc
    · rcases List.mem_cons.mp hr' with rfl | hr''
      · intro hc; cases hc
      · cases hr''
  exact ⟨⟨h1, timer_probe_and_selection.1 _ h1⟩,
    ⟨h2, timer_probe_and_selection.2.1 _ h2⟩,
    ⟨h3, timer_probe_and_selection.2.2 _ h3⟩⟩

end Benchmark

namespace Benchmark

/-- C6 (amended): after a per-cycle evaluation, `maxedOut` is true exactly
when the evaluation discarded the samples (benchmark aborted or clone hz
infinite) or the extended sample has at least `minSamples` entries and the
accumulated clocking elapsed (which only accumulates once the sample is
large enough, and excludes delays) exceeds `maxTime`; one more clone is
enqueued exactly when the queue (emptied on the discard path) holds fewer
than two clones and `maxedOut` is false; and when `maxedOut` is true on a
non-aborted evaluation the controller sets `running` to false, restores
`initCount`, records `times.elapsed`, and aborts the invoke cycle so the
run completes. -/
theorem evaluate_maxedOut_enqueue (s : EvalState) (c : CloneObs) (now : ℚ) :
    ((evaluate s c now).maxedOut = true ↔
      ((s.benchAborted = true ∨ c.hz.isInf = true) ∨
       (s.minSamples ≤ s.sample.length + 1 ∧
        s.maxTime < (if s.minSamples ≤ s.sample.length + 1
          then s.elapsedAcc + (now - c.timeStamp) else s.elapsedAcc)))) ∧
    ((evaluate s c now).enqueued = true ↔
      ((if s.benchAborted = true ∨ c.hz.isInf = true then 0 else s.queueLen) < 2 ∧
       (evaluate s c now).maxedOut = false)) ∧
    ((evaluate s c now).maxedOut = true → s.benchAborted = false →
      ((evaluate s c now).state.benchRunning = false ∧
       (evaluate s c now).state.benchInitCount = s.initCountSaved ∧
       (evaluate s c now).state.timesElapsed = (now - s.timesTimeStamp) / 1000 ∧
       (evaluate s c now).eventAborted = true)) := by
  by_cases hA : s.benchAborted
  · by_cases hI : c.hz.isInf
    · simp [evaluate, hA, hI]
    · simp [evaluate, hA, hI]
  · by_cases hI : c.hz.isInf
    · simp [evaluate, hA, hI]
    · simp only [evaluate, hA, hI, Bool.false_eq_true, false_or, Bool.or_self,
        if_false, Bool.false_or]
      by_cases hm : s.minSamples ≤ s.sample.length + 1
      · by_cases ht : s.maxTime < s.elapsedAcc + (now - c.timeStamp)
        · simp [hm, ht]
        · simp [hm, ht]
      · simp [hm]

/-- A concrete evaluation state for the C6 counterexample: the benchmark
is not aborted but the finishing clone's hz is `Infinity`. -/
def c6s : EvalState :=
  { benchAborted := false, benchRunning := true, benchHz := .inf,
    benchCount := 1, benchInitCount := 1, maxTime := 5, minSamples := 5,
    sample := [],
    stats := { mean := .fin 0, variance := .fin 0, deviation := .fin 0,
               sem := .fin 0, moe := .fin 0, rme := .fin 0 },
    timesCycle := .fin 0, timesPeriod := .fin 0, timesElapsed := 0,
    timesTimeStamp := 0, elapsedAcc := 0, initCountSaved := 1, queueLen := 1 }

/-- The finishing clone of the C6 counterexample (unclockable: hz is
`Infinity`). -/
def c6c : CloneObs := { period := 0, timeStamp := 0, hz := .inf }

/-- Counterexample for C6 as stated: on the discard path (clone hz
infinite, benchmark not aborted) the evaluation sets `maxedOut = true`
even though the sample (emptied) has fewer than `minSamples` entries and
the accumulated elapsed does not exceed `maxTime`. -/
theorem evaluate_maxedOut_counterexample :
    ¬(((evaluate c6s c6c 0).maxedOut = true) ↔
      (c6s.minSamples ≤ (evaluate c6s c6c 0).state.sample.length ∧
       c6s.maxTime < (evaluate c6s c6c 0).state.elapsedAcc)) := by
  intro h
  have hmax : (evaluate c6s c6c 0).maxedOut = true := by
    simp [evaluate, c6s, c6c]
  obtain ⟨hlen, _⟩ := h.mp hmax
  have hsample : (evaluate c6s c6c 0).state.sample = [] := by
    simp [evaluate, c6s, c6c]
  rw [hsample] at hlen
  simp [c6s] at hlen

/-- Witness for C6: at the concrete discard-path state the amended
characterization gives `maxedOut = true`, and the completion effects
follow with the hypotheses discharged. -/
theorem evaluate_maxedOut_enqueue_witness :
    (evaluate c6s c6c 0).maxedOut = true ∧
    (evaluate c6s c6c 0).state.benchRunning = false ∧
    (evaluate c6s c6c 0).state.benchInitCount = c6s.initCountSaved ∧
    (evaluate c6s c6c 0).state.timesElapsed = (0 - c6s.timesTimeStamp) / 1000 ∧
    (evaluate c6s c6c 0).eventAborted = true := by
  have hmax : (evaluate c6s c6c 0).maxedOut = true :=
    ((evaluate_maxedOut_enqueue c6s c6c 0).1).mpr (Or.inl (Or.inr rfl))
  exact ⟨hmax, (evaluate_maxedOut_enqueue c6s c6c 0).2.2 hmax rfl⟩

end Benchmark

namespace Benchmark

/-- The default (empty) options bag. -/
def noOptions : OptionsBag := {}

/-- C7 (code bug): the operation sequence `run(); abort(); run()` on a
default-constructed benchmark leaves `running = true` **and**
`aborted = true` simultaneously: this port's `reset` (invoked at the start
of the second `run`) restores only option-bag keys, because the class's
data fields are instance properties and `cloneDeep(constructor.prototype)`
is empty, so the `aborted` flag set by `abort()` is never cleared. -/
theorem running_and_aborted_both_true :
    (runOps (mkBench noOptions (1 / 1000)) [.run, .abort, .run]).running = true ∧
    (runOps (mkBench noOptions (1 / 1000)) [.run, .abort, .run]).aborted = true := by
  constructor <;>
    simp [runOps, stepOp, runStart, abortBench, resetBench, completeBench,
      applyOptionChanges, mkBench, noOptions]

/-- The state of a default benchmark after a completed run: nonzero
counters, an hz value, and one recorded sample, with `running = false`. -/
def postRunState : BenchState :=
  { mkBench noOptions (1 / 1000) with
    count := 1024, cycles := 3, hz := 100, sample := [1 / 100],
    running := false }

/-- C8 (code bug): `reset()` on a finished default benchmark changes
nothing — in particular it does not empty `stats.sample` and does not
restore `count`, `cycles` or `hz` — because the change source
`assign({}, cloneDeep(constructor.prototype), cloneDeep(options))` is
empty for a benchmark constructed without options.  The reset state is
therefore distinguishable from a freshly constructed benchmark. -/
theorem reset_does_not_restore :
    resetBench postRunState = postRunState ∧
    postRunState ≠ mkBench noOptions (1 / 1000) ∧
    (resetBench postRunState).sample = [1 / 100] ∧
    (resetBench postRunState).count = 1024 ∧
    (mkBench noOptions (1 / 1000)).sample = [] ∧
    (mkBench noOptions (1 / 1000)).count = 0 := by
  refine ⟨?_, ?_, ?_, ?_, ?_, ?_⟩
  · simp [resetBench, applyOptionChanges, postRunState, mkBench, noOptions]
  · intro h
    have hc : postRunState.count = (mkBench noOptions (1 / 1000)).count := by rw [h]
    simp [postRunState, mkBench, noOptions] at hc
  · simp [resetBench, applyOptionChanges, postRunState, mkBench, noOptions]
  · simp [resetBench, applyOptionChanges, postRunState, mkBench, noOptions]
  · simp [mkBench, noOptions]
  · simp [mkBench, noOptions]

end Benchmark

namespace Benchmark

/-- C9 (code bug): the generated deferred clock body does not tokenize:
the stray single quote after the final `return \x7b uid: "..." \x7d`
statement opens a string literal that is never closed before the next
newline, so `Function(...)` throws a `SyntaxError` when the deferred
batch is compiled, instead of installing the deferred closure; the same
body without the stray quote tokenizes cleanly, isolating the quote as
the culprit. -/
theorem deferred_template_syntax_error :
    jsLexOk (compileFuncBodyDeferred "0" "deferred" "deferred.resolve()"
      "m0.setup()" "m0.teardown()" "uid123") = false ∧
    jsLexOk (deferredBodyPrefix "0" "deferred" "deferred.resolve()"
      "m0.setup()" "m0.teardown()" "uid123" ++ "\n  ") = true := by
  constructor <;> decide

end Benchmark
